import Mathlib

/-!
# LEVERVexUDIAGONAL: diagonal tracking wheel and lever one-shot

A shallow embedding of

* `DiagonalTrackingWheel::getDistance` (`src/diagonal_tracking_wheel.hpp`), and
* the lever one-shot section of the `opcontrol` loop body (`src/main.cpp`, lines 158-207),

followed by the theorems that settle the specification's claims about them.

Conventions of the embedding.

* C++ `double` values are elements of a field `α`; the theorems instantiate `α` with `ℝ`
  (the claims are about real arithmetic), and the definitions stay executable at `α = ℚ`.
* `M_PI` and `M_SQRT2` come from `<cmath>`, which is not part of the repository; they are
  parameters of `getDistance`, instantiated with `Real.pi` and `√2` in the theorems.
* Where an overflow, an infinity or a NaN decides a statement, the same source lines are
  embedded a second time over `F64`, binary64 with round-to-nearest-even: `getDistanceF64`
  and `extendSpeedF64`.
* `pros::adi::Encoder::get_value()` returns an integer tick count; the two hardware reads of
  a call are the integer arguments `valueA`, `valueB` of `getDistance`.
* Function-local `static` variables of `opcontrol` become fields of an explicit state that is
  threaded through the cycles.
-/

namespace LeverVex

/-! ## `src/diagonal_tracking_wheel.hpp` -/

/-- The data members of `DiagonalTrackingWheel` that `getDistance` reads or writes
(lines 54-57). The encoder pointers `a`, `b` are represented by the values read through
them, and `offset` is only forwarded to the base class. -/
structure DiagonalTrackingWheel (α : Type) where
  isVertical : Bool
  wheelDiameter : α
  lastA : α
  lastB : α

/-- The constructor (lines 8-21): `lastA(0)`, `lastB(0)`; `vertical = true` is forward,
`false` is lateral. -/
def DiagonalTrackingWheel.construct {α : Type} [Field α] (vertical : Bool)
    (wheelDiameter : α) : DiagonalTrackingWheel α :=
  { isVertical := vertical, wheelDiameter := wheelDiameter, lastA := 0, lastB := 0 }

/-- The local constant of line 35: `constexpr double TICKS_PER_REV = 8192.0`. -/
def TICKS_PER_REV {α : Type} [Field α] : α := 8192

/-- The method `getDistance` (lines 23-49). `valueA` and `valueB` are what
`a->get_value()` and `b->get_value()` return in this call. The result is the returned
distance together with the instance after the call. -/
def getDistance {α : Type} [Field α] (M_PI M_SQRT2 : α) (w : DiagonalTrackingWheel α)
    (valueA valueB : ℤ) : α × DiagonalTrackingWheel α :=
  let currA : α := (valueA : α)
  let currB : α := (valueB : α)
  let dA := currA - w.lastA
  let dB := currB - w.lastB
  let w' : DiagonalTrackingWheel α := { w with lastA := currA, lastB := currB }
  let inchesPerTick := (M_PI * w.wheelDiameter) / TICKS_PER_REV
  let dA := dA * inchesPerTick
  let dB := dB * inchesPerTick
  if w.isVertical then
    ((dA + dB) / M_SQRT2, w')
  else
    ((dA - dB) / M_SQRT2, w')

/-- Successive `getDistance` calls on one instance, one per control cycle, each with that
cycle's pair of readings: the list of returned distances and the final instance. -/
def getDistances {α : Type} [Field α] (M_PI M_SQRT2 : α) :
    DiagonalTrackingWheel α → List (ℤ × ℤ) → List α × DiagonalTrackingWheel α
  | w, [] => ([], w)
  | w, (valueA, valueB) :: rest =>
    let r := getDistance M_PI M_SQRT2 w valueA valueB
    let rs := getDistances M_PI M_SQRT2 r.2 rest
    (r.1 :: rs.1, rs.2)

/-- The reading of the cycle before the current one: the last pair of `readings`, or the
constructor's `(0, 0)` when there has been no cycle yet. -/
def previousReading (readings : List (ℤ × ℤ)) : ℤ × ℤ :=
  readings.getLast?.getD (0, 0)

/-! ## `src/main.cpp`: lever constants (lines 24-32) -/

/-- Line 24: `constexpr double LEVER_MIN = 0`. -/
def LEVER_MIN : ℚ := 0

/-- Line 25: `constexpr double LEVER_MAX = 270`. -/
def LEVER_MAX : ℚ := 270

/-- Line 27: `constexpr double LEVER_START_BOOST = 10`. -/
def LEVER_START_BOOST : ℚ := 10

/-- Line 28: `constexpr double LEVER_SNAP_ZONE = 10`. -/
def LEVER_SNAP_ZONE : ℚ := 10

/-- Line 30: `constexpr int LEVER_SPEED_FAST = 70` (middle goal on). -/
def LEVER_SPEED_FAST : ℤ := 70

/-- Line 31: `constexpr int LEVER_SPEED_SLOW = 30` (middle goal off). -/
def LEVER_SPEED_SLOW : ℤ := 30

/-- Line 32: `constexpr int LEVER_SPEED_BOOST = 127`. -/
def LEVER_SPEED_BOOST : ℤ := 127

/-! ## `src/main.cpp`: the lever one-shot of `opcontrol` (lines 132-135, 158-207)

Positions are `double` degrees in the source. Every comparison of the section is between the
measured position and one of the constants `10`, `270 - 10`, `270 - 2`, `0 + 2`, all exact in
binary floating point, so positions are modelled as rationals. A position that is an
infinity or NaN is covered by `extendSpeedF64` further down. -/

/-- The four `static` locals of `opcontrol` that the lever section owns (lines 132-135). -/
structure LeverStatics where
  leverActive : Bool
  leverGoingUp : Bool
  lastR1 : Bool
  lastR2 : Bool
  deriving DecidableEq, Repr

/-- The values of the statics when `opcontrol` is entered (lines 132-135). -/
def LeverStatics.initial : LeverStatics :=
  { leverActive := false, leverGoingUp := true, lastR1 := false, lastR2 := false }

/-- What the lever section samples in one loop iteration: the two trigger buttons
(lines 158-159), the measured lever position `lever.get_position()` (line 170 or 203), and
the value of `middleState`, which the section reads and never writes. -/
structure CycleInput where
  r1 : Bool
  r2 : Bool
  pos : ℚ
  middleState : Bool
  deriving DecidableEq, Repr

/-- The single actuator command of an iteration: `lever.move_absolute(position, velocity)`. -/
structure MoveAbsolute where
  position : ℚ
  velocity : ℤ
  deriving DecidableEq, Repr

/-- Line 161: `bool r1Pressed = r1 && !lastR1`. -/
def r1Pressed (s : LeverStatics) (i : CycleInput) : Bool := i.r1 && !s.lastR1

/-- Line 162: `bool r2Pressed = r2 && !lastR2`. -/
def r2Pressed (s : LeverStatics) (i : CycleInput) : Bool := i.r2 && !s.lastR2

/-- The speed selection of the extending branch (lines 174-183), with the three zone
constants it compares against as arguments. -/
def extendSpeed (leverMax snapZone startBoost pos : ℚ) (middleState : Bool) : ℤ :=
  if pos ≤ startBoost then
    LEVER_SPEED_BOOST
  else if pos ≥ leverMax - snapZone then
    LEVER_SPEED_BOOST
  else
    (if middleState then LEVER_SPEED_FAST else LEVER_SPEED_SLOW)

/-- One iteration of the lever section (lines 158-207): the `move_absolute` command it issues
and the statics at the end of the iteration. -/
def leverCycle (s : LeverStatics) (i : CycleInput) : MoveAbsolute × LeverStatics :=
  -- lines 164-167
  let s1 : LeverStatics :=
    if (r1Pressed s i || r2Pressed s i) && !s.leverActive then
      { s with leverActive := true, leverGoingUp := true }
    else s
  -- lines 169-204
  let r : MoveAbsolute × LeverStatics :=
    if s1.leverActive then
      if s1.leverGoingUp then
        let speed := extendSpeed LEVER_MAX LEVER_SNAP_ZONE LEVER_START_BOOST i.pos i.middleState
        (⟨LEVER_MAX, speed⟩,
          if i.pos ≥ LEVER_MAX - 2 then { s1 with leverGoingUp := false } else s1)
      else
        let downSpeed := if i.middleState then LEVER_SPEED_FAST else LEVER_SPEED_SLOW
        (⟨LEVER_MIN, downSpeed⟩,
          if i.pos ≤ LEVER_MIN + 2 then { s1 with leverActive := false } else s1)
    else
      (⟨i.pos, 50⟩, s1)
  -- lines 206-207
  (r.1, { r.2 with lastR1 := i.r1, lastR2 := i.r2 })

/-- Consecutive iterations of the lever section: for each iteration, the command issued and
the statics at its end. -/
def leverRun : LeverStatics → List CycleInput → List (MoveAbsolute × LeverStatics)
  | _, [] => []
  | s, i :: rest =>
    let r := leverCycle s i
    r :: leverRun r.2 rest

/-- For each of consecutive iterations, the values computed for `r1Pressed` and `r2Pressed`
(lines 161-162) in that iteration. -/
def pressedTrace : LeverStatics → List CycleInput → List (Bool × Bool)
  | _, [] => []
  | s, i :: rest => (r1Pressed s i, r2Pressed s i) :: pressedTrace (leverCycle s i).2 rest

/-! ## Vocabulary of the specification -/

/-- The three states the specification gives the lever sequencer. -/
inductive LeverPhase where
  | Idle
  | Extending
  | Retracting
  deriving DecidableEq, Repr

/-- The specification's reading of the two flags: not active is `Idle`; active and going up
is `Extending`; active and not going up is `Retracting`. -/
def LeverStatics.phase (s : LeverStatics) : LeverPhase :=
  if s.leverActive then
    (if s.leverGoingUp then LeverPhase.Extending else LeverPhase.Retracting)
  else LeverPhase.Idle

/-- The edges a rising-edge detector emits on a stream of samples when the sample stored
before the first one is `prev`: at each index, the current sample and not the one before. -/
def edgeStream (prev : Bool) (samples : List Bool) : List Bool :=
  List.zipWith (fun last cur => cur && !last) (prev :: samples) samples

/-- The number of false-to-true transitions in a stream of samples that is preceded by the
sample `false`: the adjacent pairs `(false, true)`. -/
def risingTransitions (samples : List Bool) : ℕ :=
  ((false :: samples).zip samples).count (false, true)

/-- The inputs of the full-cycle scenario, one per iteration: R1 is sampled pressed in the
first iteration and released afterwards, R2 is never pressed, `middleState` keeps one value,
and the measured positions are 0, 5, 50, 260, 268, 270 and then 260, 50, 2, 0. -/
def fullCycleScenario (middleState : Bool) : List CycleInput :=
  [⟨true, false, 0, middleState⟩, ⟨false, false, 5, middleState⟩,
   ⟨false, false, 50, middleState⟩, ⟨false, false, 260, middleState⟩,
   ⟨false, false, 268, middleState⟩, ⟨false, false, 270, middleState⟩,
   ⟨false, false, 260, middleState⟩, ⟨false, false, 50, middleState⟩,
   ⟨false, false, 2, middleState⟩, ⟨false, false, 0, middleState⟩]

/-- The stream of samples `[F, F, T, T, T, F, T]` fed to R1, with R2 released, the lever at
position 0 and `middleState` off. -/
def edgeExampleInputs : List CycleInput :=
  [false, false, true, true, true, false, true].map (fun b => ⟨b, false, 0, false⟩)

/-! ## Further definitions: failed reads, the trigger test, the three-state machine -/

/-- Lines 164-167 of `main.cpp` alone: the statics after the trigger test, before the
lever branch of the same iteration runs. -/
def afterTrigger (s : LeverStatics) (i : CycleInput) : LeverStatics :=
  if (r1Pressed s i || r2Pressed s i) && !s.leverActive then
    { s with leverActive := true, leverGoingUp := true }
  else s

/-- The lever sequencer as section 4.2 of the specification words it, one cycle of the
three-state machine: a trigger edge takes `Idle` to `Extending`; `Extending` commands
`LEVER_MAX = 270` at the boost, snap or cruise speed and moves to `Retracting` when
`pos ≥ LEVER_MAX − 2`; `Retracting` commands `LEVER_MIN = 0` at the fast or slow speed and
moves to `Idle` when `pos ≤ LEVER_MIN + 2`; `Idle` holds the position at speed 50. The
action of a cycle is the one of the state entered by the trigger. -/
def specSequencerCycle (p : LeverPhase) (edge : Bool) (pos : ℚ) (aux : Bool) :
    MoveAbsolute × LeverPhase :=
  match (if p = LeverPhase.Idle ∧ edge = true then LeverPhase.Extending else p) with
  | LeverPhase.Extending =>
    (⟨270, if pos ≤ 10 then 127 else if pos ≥ 270 - 10 then 127
              else if aux = true then 70 else 30⟩,
      if pos ≥ 270 - 2 then LeverPhase.Retracting else LeverPhase.Extending)
  | LeverPhase.Retracting =>
    (⟨0, if aux = true then 70 else 30⟩,
      if pos ≤ 0 + 2 then LeverPhase.Idle else LeverPhase.Retracting)
  | LeverPhase.Idle => (⟨pos, 50⟩, LeverPhase.Idle)

/-- Consecutive cycles of the three-state machine of the specification; each cycle is given
its trigger edge, the measured position and the auxiliary toggle. -/
def specSequencerRun : LeverPhase → List (Bool × ℚ × Bool) → List (MoveAbsolute × LeverPhase)
  | _, [] => []
  | p, (edge, pos, aux) :: rest =>
    let r := specSequencerCycle p edge pos aux
    r :: specSequencerRun r.2 rest

/-- What the three-state machine is given in the cycles of a run of the lever section: the
trigger edge (`r1Pressed || r2Pressed`, line 164), the position and `middleState`. -/
def sequencerInputs : LeverStatics → List CycleInput → List (Bool × ℚ × Bool)
  | _, [] => []
  | s, i :: rest =>
    (r1Pressed s i || r2Pressed s i, i.pos, i.middleState)
      :: sequencerInputs (leverCycle s i).2 rest

/-! ## Binary64 arithmetic

The C++ type `double` with its special values, for the statements in which an overflow, an
infinity or a NaN decides the outcome. A finite value is kept as the rational number it
denotes; the sign of a zero is not represented (`0.0` and `-0.0` compare equal, and the
modelled code divides only by nonzero constants, where that sign cannot reach a result). -/

/-- A `double`: a finite number, an infinity (`negative = true` for `-inf`) or NaN. -/
inductive F64 where
  | fin (q : ℚ)
  | inf (negative : Bool)
  | nan
  deriving DecidableEq

/-- Rounding of a rational to the nearest integer, ties to the even one. -/
def roundHalfEven (x : ℚ) : ℤ :=
  if x - ⌊x⌋ < 1 / 2 then ⌊x⌋
  else if 1 / 2 < x - ⌊x⌋ then ⌊x⌋ + 1
  else if ⌊x⌋ % 2 = 0 then ⌊x⌋ else ⌊x⌋ + 1

/-- Rounding of an exact result to binary64, round-to-nearest-even: 53 significant bits in
the binade of `q`, the subnormal spacing `2^(-1074)` below `2^(-1022)`, and an infinity when
the rounded magnitude reaches `2^1024`. -/
def F64.round (q : ℚ) : F64 :=
  if q = 0 then F64.fin 0
  else
    let e : ℤ := max (Int.log 2 |q|) (-1022)
    let ulp : ℚ := (2 : ℚ) ^ (e - 52)
    let r : ℚ := (roundHalfEven (q / ulp) : ℚ) * ulp
    if (2 : ℚ) ^ (1024 : ℤ) ≤ |r| then F64.inf (decide (q < 0)) else F64.fin r

/-- Whether the value is a finite number. -/
def F64.isFinite : F64 → Bool
  | F64.fin _ => true
  | _ => false

/-- Unary minus. -/
def F64.neg : F64 → F64
  | F64.fin a => F64.fin (-a)
  | F64.inf s => F64.inf (!s)
  | F64.nan => F64.nan

/-- The operation `+` of `double`. -/
def F64.add : F64 → F64 → F64
  | F64.fin a, F64.fin b => F64.round (a + b)
  | F64.fin _, F64.inf s => F64.inf s
  | F64.inf s, F64.fin _ => F64.inf s
  | F64.inf s, F64.inf t => if s = t then F64.inf s else F64.nan
  | F64.nan, _ => F64.nan
  | _, F64.nan => F64.nan

/-- The operation `-` of `double`. -/
def F64.sub (x y : F64) : F64 := F64.add x (F64.neg y)

/-- The operation `*` of `double`; zero times an infinity is NaN. -/
def F64.mul : F64 → F64 → F64
  | F64.fin a, F64.fin b => F64.round (a * b)
  | F64.fin a, F64.inf s => if a = 0 then F64.nan else F64.inf (xor s (decide (a < 0)))
  | F64.inf s, F64.fin b => if b = 0 then F64.nan else F64.inf (xor s (decide (b < 0)))
  | F64.inf s, F64.inf t => F64.inf (xor s t)
  | F64.nan, _ => F64.nan
  | _, F64.nan => F64.nan

/-- The operation `/` of `double`. A zero divisor is taken as `+0.0`. -/
def F64.div : F64 → F64 → F64
  | F64.fin a, F64.fin b =>
    if b = 0 then (if a = 0 then F64.nan else F64.inf (decide (a < 0)))
    else F64.round (a / b)
  | F64.fin _, F64.inf _ => F64.fin 0
  | F64.inf s, F64.fin b => F64.inf (xor s (decide (b < 0)))
  | F64.inf _, F64.inf _ => F64.nan
  | F64.nan, _ => F64.nan
  | _, F64.nan => F64.nan

/-- The comparison `<=` of `double`: false whenever an operand is NaN. -/
def F64.le : F64 → F64 → Bool
  | F64.fin a, F64.fin b => decide (a ≤ b)
  | F64.fin _, F64.inf t => !t
  | F64.inf s, F64.fin _ => s
  | F64.inf s, F64.inf t => s || !t
  | F64.nan, _ => false
  | _, F64.nan => false

/-- The comparison `>=` of `double`: false whenever an operand is NaN. -/
def F64.ge (x y : F64) : Bool := F64.le y x

/-- The `double` nearest to π, the value of `M_PI`: `0x400921FB54442D18`. -/
def M_PI_F64 : F64 := F64.fin (884279719003555 / 281474976710656)

/-- The `double` nearest to √2, the value of `M_SQRT2`: `0x3FF6A09E667F3BCD`. -/
def M_SQRT2_F64 : F64 := F64.fin (6369051672525773 / 4503599627370496)

/-- The method `getDistance` (lines 23-49) in binary64 arithmetic. An `int32_t` reading
converts to `double` exactly. -/
def getDistanceF64 (w : DiagonalTrackingWheel F64) (valueA valueB : ℤ) :
    F64 × DiagonalTrackingWheel F64 :=
  let currA : F64 := F64.fin (valueA : ℚ)
  let currB : F64 := F64.fin (valueB : ℚ)
  let dA := F64.sub currA w.lastA
  let dB := F64.sub currB w.lastB
  let w' : DiagonalTrackingWheel F64 := { w with lastA := currA, lastB := currB }
  let inchesPerTick := F64.div (F64.mul M_PI_F64 w.wheelDiameter) (F64.fin 8192)
  let dA := F64.mul dA inchesPerTick
  let dB := F64.mul dB inchesPerTick
  if w.isVertical then
    (F64.div (F64.add dA dB) M_SQRT2_F64, w')
  else
    (F64.div (F64.sub dA dB) M_SQRT2_F64, w')

/-- The speed selection of the extending branch (lines 174-183) on `double` values, with the
three zone constants as arguments. -/
def extendSpeedF64 (leverMax snapZone startBoost pos : F64) (middleState : Bool) : ℤ :=
  if F64.le pos startBoost then
    LEVER_SPEED_BOOST
  else if F64.ge pos (F64.sub leverMax snapZone) then
    LEVER_SPEED_BOOST
  else
    (if middleState then LEVER_SPEED_FAST else LEVER_SPEED_SLOW)

/-! ## Lemmas about `getDistance` -/

theorem getDistance_snd {α : Type} [Field α] (p q : α) (w : DiagonalTrackingWheel α)
    (a b : ℤ) :
    (getDistance p q w a b).2 =
      { isVertical := w.isVertical, wheelDiameter := w.wheelDiameter,
        lastA := (a : α), lastB := (b : α) } := by
  unfold getDistance
  by_cases h : w.isVertical = true <;> simp [h]

theorem getDistance_fst {α : Type} [Field α] (p q : α) (w : DiagonalTrackingWheel α)
    (a b : ℤ) :
    (getDistance p q w a b).1 =
      if w.isVertical = true then
        (((a : α) - w.lastA) * (p * w.wheelDiameter / 8192)
          + ((b : α) - w.lastB) * (p * w.wheelDiameter / 8192)) / q
      else
        (((a : α) - w.lastA) * (p * w.wheelDiameter / 8192)
          - ((b : α) - w.lastB) * (p * w.wheelDiameter / 8192)) / q := by
  unfold getDistance TICKS_PER_REV
  by_cases h : w.isVertical = true <;> simp [h]

theorem getDistances_snd {α : Type} [Field α] (p q : α) (w : DiagonalTrackingWheel α)
    (rs : List (ℤ × ℤ)) :
    (getDistances p q w rs).2 =
      { isVertical := w.isVertical, wheelDiameter := w.wheelDiameter,
        lastA := (rs.getLast?.map (fun r => (r.1 : α))).getD w.lastA,
        lastB := (rs.getLast?.map (fun r => (r.2 : α))).getD w.lastB } := by
  induction rs generalizing w with
  | nil => simp [getDistances]
  | cons r rest ih =>
    obtain ⟨a, b⟩ := r
    simp only [getDistances]
    rw [ih, getDistance_snd]
    cases hrest : rest.getLast? with
    | none => simp [List.getLast?_cons, hrest]
    | some x => simp [List.getLast?_cons, hrest]

theorem getDistances_construct_snd {α : Type} [Field α] (p q : α) (v : Bool) (d : α)
    (rs : List (ℤ × ℤ)) :
    (getDistances p q (DiagonalTrackingWheel.construct v d) rs).2 =
      { isVertical := v, wheelDiameter := d,
        lastA := ((previousReading rs).1 : α), lastB := ((previousReading rs).2 : α) } := by
  rw [getDistances_snd]
  unfold previousReading DiagonalTrackingWheel.construct
  cases rs.getLast? <;> simp

/-- The distance returned in cycle `i` of a run is the one `getDistance` returns on the
readings of cycle `i` from the instance left by the cycles before it. -/
theorem getDistances_fst_getElem? {α : Type} [Field α] (p q : α)
    (w : DiagonalTrackingWheel α) (rs : List (ℤ × ℤ)) (i : ℕ) :
    (getDistances p q w rs).1[i]? =
      rs[i]?.map (fun r => (getDistance p q (getDistances p q w (rs.take i)).2 r.1 r.2).1) := by
  induction rs generalizing w i with
  | nil => simp [getDistances]
  | cons r rest ih =>
    obtain ⟨a, b⟩ := r
    cases i with
    | zero => simp [getDistances]
    | succ n => simp [getDistances, ih]

theorem sqrt_two_bounds : (1.4142 : ℝ) < √2 ∧ √2 < (1.4143 : ℝ) := by
  constructor
  · rw [Real.lt_sqrt (by norm_num)]; norm_num
  · rw [Real.sqrt_lt' (by norm_num)]; norm_num

theorem two_pi_div_sqrt_two_bounds :
    (4.442 : ℝ) < 2 * Real.pi / √2 ∧ 2 * Real.pi / √2 < (4.444 : ℝ) := by
  obtain ⟨hlo, hhi⟩ := sqrt_two_bounds
  have hpos : (0 : ℝ) < √2 := by positivity
  have h1 := Real.pi_gt_d6
  have h2 := Real.pi_lt_d6
  constructor
  · rw [lt_div_iff₀ hpos]
    nlinarith
  · rw [div_lt_iff₀ hpos]
    nlinarith

/-- One full revolution (8192 ticks) on a single channel with wheel diameter 2. -/
theorem getDistance_full_turn (lastA lastB : ℤ) :
    (getDistance Real.pi (√2) ⟨true, 2, (lastA : ℝ), (lastB : ℝ)⟩ (lastA + 8192) lastB).1
        = 2 * Real.pi / √2
      ∧ (getDistance Real.pi (√2) ⟨false, 2, (lastA : ℝ), (lastB : ℝ)⟩
          (lastA + 8192) lastB).1 = 2 * Real.pi / √2
      ∧ (getDistance Real.pi (√2) ⟨true, 2, (lastA : ℝ), (lastB : ℝ)⟩
          lastA (lastB + 8192)).1 = 2 * Real.pi / √2
      ∧ (getDistance Real.pi (√2) ⟨false, 2, (lastA : ℝ), (lastB : ℝ)⟩
          lastA (lastB + 8192)).1 = -(2 * Real.pi / √2) := by
  simp only [getDistance_fst, if_true, Bool.false_eq_true, if_false]
  push_cast
  refine ⟨?_, ?_, ?_, ?_⟩ <;> ring

/-! ## Lemmas about the lever section -/

theorem leverCycle_lastR1 (s : LeverStatics) (i : CycleInput) :
    (leverCycle s i).2.lastR1 = i.r1 := rfl

theorem leverCycle_lastR2 (s : LeverStatics) (i : CycleInput) :
    (leverCycle s i).2.lastR2 = i.r2 := rfl

theorem leverCycle_extending (lastR1 lastR2 r1 r2 : Bool) (pos : ℚ) (middleState : Bool) :
    leverCycle ⟨true, true, lastR1, lastR2⟩ ⟨r1, r2, pos, middleState⟩
      = (⟨LEVER_MAX, extendSpeed LEVER_MAX LEVER_SNAP_ZONE LEVER_START_BOOST pos middleState⟩,
          ⟨true, !decide (pos ≥ LEVER_MAX - 2), r1, r2⟩) := by
  by_cases h : pos ≥ LEVER_MAX - 2 <;> simp [leverCycle, h]

theorem leverCycle_retracting (lastR1 lastR2 r1 r2 : Bool) (pos : ℚ) (middleState : Bool) :
    leverCycle ⟨true, false, lastR1, lastR2⟩ ⟨r1, r2, pos, middleState⟩
      = (⟨LEVER_MIN, if middleState = true then LEVER_SPEED_FAST else LEVER_SPEED_SLOW⟩,
          ⟨!decide (pos ≤ LEVER_MIN + 2), false, r1, r2⟩) := by
  by_cases h : pos ≤ LEVER_MIN + 2 <;> simp [leverCycle, h]

theorem leverCycle_idle_no_edge (up lastR1 lastR2 r1 r2 : Bool) (pos : ℚ)
    (middleState : Bool) (h : ((r1 && !lastR1) || (r2 && !lastR2)) = false) :
    leverCycle ⟨false, up, lastR1, lastR2⟩ ⟨r1, r2, pos, middleState⟩
      = (⟨pos, 50⟩, ⟨false, up, r1, r2⟩) := by
  simp [leverCycle, r1Pressed, r2Pressed, h]

theorem leverCycle_idle_edge (up lastR1 lastR2 r1 r2 : Bool) (pos : ℚ) (middleState : Bool)
    (h : ((r1 && !lastR1) || (r2 && !lastR2)) = true) :
    leverCycle ⟨false, up, lastR1, lastR2⟩ ⟨r1, r2, pos, middleState⟩
      = leverCycle ⟨true, true, lastR1, lastR2⟩ ⟨r1, r2, pos, middleState⟩ := by
  simp [leverCycle, r1Pressed, r2Pressed, h]

/-- The commands of the full-cycle scenario with `middleState` off. -/
theorem fullCycleScenario_commands_off :
    (leverRun LeverStatics.initial (fullCycleScenario false)).map (fun r => r.1)
      = [⟨270, 127⟩, ⟨270, 127⟩, ⟨270, 30⟩, ⟨270, 127⟩, ⟨270, 127⟩, ⟨0, 30⟩, ⟨0, 30⟩,
          ⟨0, 30⟩, ⟨0, 30⟩, ⟨0, 50⟩] := by
  norm_num [leverRun, leverCycle, fullCycleScenario, LeverStatics.initial, r1Pressed,
    r2Pressed, extendSpeed, LEVER_MAX, LEVER_MIN, LEVER_SNAP_ZONE,
    LEVER_START_BOOST, LEVER_SPEED_BOOST, LEVER_SPEED_FAST, LEVER_SPEED_SLOW]

/-! ## Lemmas about the edge detection -/

theorem edgeStream_cons (prev x : Bool) (xs : List Bool) :
    edgeStream prev (x :: xs) = (x && !prev) :: edgeStream x xs := rfl

theorem pressedTrace_map_fst (s : LeverStatics) (ins : List CycleInput) :
    (pressedTrace s ins).map Prod.fst = edgeStream s.lastR1 (ins.map CycleInput.r1) := by
  induction ins generalizing s with
  | nil => rfl
  | cons x rest ih =>
    simp only [pressedTrace, List.map_cons, edgeStream_cons, ih, leverCycle_lastR1, r1Pressed]

theorem pressedTrace_map_snd (s : LeverStatics) (ins : List CycleInput) :
    (pressedTrace s ins).map Prod.snd = edgeStream s.lastR2 (ins.map CycleInput.r2) := by
  induction ins generalizing s with
  | nil => rfl
  | cons x rest ih =>
    simp only [pressedTrace, List.map_cons, edgeStream_cons, ih, leverCycle_lastR2, r2Pressed]

theorem edgeStream_getElem? (prev : Bool) (xs : List Bool) (i : ℕ) :
    (edgeStream prev xs)[i]? = some true ↔
      xs[i]? = some true ∧ ((i = 0 ∧ prev = false) ∨ (0 < i ∧ xs[i - 1]? = some false)) := by
  induction xs generalizing prev i with
  | nil => simp [edgeStream]
  | cons x rest ih =>
    cases i with
    | zero => simp [edgeStream_cons]
    | succ n =>
      rw [edgeStream_cons]
      simp only [List.getElem?_cons_succ, ih, Nat.add_sub_cancel]
      cases n with
      | zero => simp
      | succ k => simp

theorem edgeStream_false_getElem? (xs : List Bool) (i : ℕ) :
    (edgeStream false xs)[i]? = some true ↔
      xs[i]? = some true ∧ (i = 0 ∨ xs[i - 1]? = some false) := by
  rw [edgeStream_getElem?]
  rcases Nat.eq_zero_or_pos i with h | h
  · simp [h]
  · have h0 : i ≠ 0 := Nat.pos_iff_ne_zero.mp h
    simp [h, h0]

theorem edgeStream_count (prev : Bool) (xs : List Bool) :
    (edgeStream prev xs).count true = ((prev :: xs).zip xs).count (false, true) := by
  induction xs generalizing prev with
  | nil => rfl
  | cons x rest ih =>
    rw [edgeStream_cons, List.zip_cons_cons, List.count_cons, List.count_cons, ih]
    cases x <;> cases prev <;> simp

theorem edgeStream_held (xs : List Bool) (i : ℕ) (h : xs[i]? = some true) :
    (edgeStream false xs)[i + 1]? ≠ some true := by
  intro hc
  rw [edgeStream_false_getElem?] at hc
  rcases hc.2 with h0 | h1
  · exact Nat.succ_ne_zero i h0
  · rw [Nat.add_sub_cancel, h] at h1
    exact absurd h1 (by decide)

/-! ## The diagonal tracking wheel: shared-sample relation, value -/

/-- Claim C1. A forward and a lateral wheel are constructed with the same diameter `d` and
are given the same list of readings, one pair per cycle. If cycle `i` has the readings
`(currA, currB)` and the two `getDistance` calls of that cycle return `f` and `l`, then
`f·√2 + l·√2 = 2·dA·inchesPerTick` and `f·√2 − l·√2 = 2·dB·inchesPerTick`, where
`dA`, `dB` are the raw tick deltas of the cycle (its readings minus those of the cycle
before, or minus the constructor value 0 in the first cycle) and
`inchesPerTick = π·d/8192`, over the reals. -/
theorem shared_sample_outputs_determine_deltas (d : ℝ) (readings : List (ℤ × ℤ)) (i : ℕ)
    (currA currB : ℤ) (f l : ℝ)
    (hr : readings[i]? = some (currA, currB))
    (hf : (getDistances Real.pi (√2) (DiagonalTrackingWheel.construct true d) readings).1[i]?
      = some f)
    (hl : (getDistances Real.pi (√2) (DiagonalTrackingWheel.construct false d) readings).1[i]?
      = some l) :
    f * √2 + l * √2
        = 2 * ((currA : ℝ) - ((previousReading (readings.take i)).1 : ℝ))
            * (Real.pi * d / 8192)
      ∧ f * √2 - l * √2
        = 2 * ((currB : ℝ) - ((previousReading (readings.take i)).2 : ℝ))
            * (Real.pi * d / 8192) := by
  have h2 : (√2 : ℝ) ≠ 0 := by positivity
  rw [getDistances_fst_getElem?, hr, getDistances_construct_snd] at hf hl
  simp only [Option.map_some', Option.some.injEq, getDistance_fst] at hf hl
  simp only [if_true, Bool.false_eq_true, if_false] at hf hl
  subst hf hl
  constructor <;> field_simp <;> ring

/-- Claim C1, at a concrete run: diameter 2, readings `(1, 0)` then `(3, 1)`, second
cycle. -/
theorem shared_sample_outputs_determine_deltas_witness :
    ([((1 : ℤ), (0 : ℤ)), (3, 1)] : List (ℤ × ℤ))[1]? = some (3, 1)
      ∧ (getDistances Real.pi (√2) (DiagonalTrackingWheel.construct true 2)
          [(1, 0), (3, 1)]).1[1]?
        = some (((3 - 1) * (Real.pi * 2 / 8192) + (1 - 0) * (Real.pi * 2 / 8192)) / √2)
      ∧ (getDistances Real.pi (√2) (DiagonalTrackingWheel.construct false 2)
          [(1, 0), (3, 1)]).1[1]?
        = some (((3 - 1) * (Real.pi * 2 / 8192) - (1 - 0) * (Real.pi * 2 / 8192)) / √2)
      ∧ (((3 - 1) * (Real.pi * 2 / 8192) + (1 - 0) * (Real.pi * 2 / 8192)) / √2) * √2
          + (((3 - 1) * (Real.pi * 2 / 8192) - (1 - 0) * (Real.pi * 2 / 8192)) / √2) * √2
        = 2 * (((3 : ℤ) : ℝ) - ((previousReading (List.take 1 [((1 : ℤ), (0 : ℤ)), (3, 1)])).1 : ℝ))
            * (Real.pi * 2 / 8192)
      ∧ (((3 - 1) * (Real.pi * 2 / 8192) + (1 - 0) * (Real.pi * 2 / 8192)) / √2) * √2
          - (((3 - 1) * (Real.pi * 2 / 8192) - (1 - 0) * (Real.pi * 2 / 8192)) / √2) * √2
        = 2 * (((1 : ℤ) : ℝ) - ((previousReading (List.take 1 [((1 : ℤ), (0 : ℤ)), (3, 1)])).2 : ℝ))
            * (Real.pi * 2 / 8192) := by
  have hr : ([((1 : ℤ), (0 : ℤ)), (3, 1)] : List (ℤ × ℤ))[1]? = some (3, 1) := rfl
  have hf : (getDistances Real.pi (√2) (DiagonalTrackingWheel.construct true 2)
      [(1, 0), (3, 1)]).1[1]?
      = some (((3 - 1) * (Real.pi * 2 / 8192) + (1 - 0) * (Real.pi * 2 / 8192)) / √2) := by
    simp [getDistances, getDistance, TICKS_PER_REV, DiagonalTrackingWheel.construct]
  have hl : (getDistances Real.pi (√2) (DiagonalTrackingWheel.construct false 2)
      [(1, 0), (3, 1)]).1[1]?
      = some (((3 - 1) * (Real.pi * 2 / 8192) - (1 - 0) * (Real.pi * 2 / 8192)) / √2) := by
    simp [getDistances, getDistance, TICKS_PER_REV, DiagonalTrackingWheel.construct]
  exact ⟨hr, hf, hl,
    shared_sample_outputs_determine_deltas 2 [(1, 0), (3, 1)] 1 3 1 _ _ hr hf hl⟩

/-- Claim C2, as amended. For every instance state and every pair of readings, `getDistance`
returns `((currA − lastA) + (currB − lastB))·(π·d/8192)/√2` when the orientation is forward
and `((currA − lastA) − (currB − lastB))·(π·d/8192)/√2` when it is lateral, and leaves
`lastA = currA`, `lastB = currB` with `d` and the orientation unchanged (over the reals).
With `d = 2`: tick deltas `(8192, 0)` give forward = lateral = `2π/√2`, tick deltas
`(0, 8192)` give forward = `2π/√2` and lateral = `−2π/√2`, and `2π/√2` is within 0.001 of
4.443. -/
theorem getDistance_value_and_state :
    (∀ (d lastA lastB : ℝ) (currA currB : ℤ),
      getDistance Real.pi (√2) ⟨true, d, lastA, lastB⟩ currA currB
          = ((((currA : ℝ) - lastA) + ((currB : ℝ) - lastB)) * (Real.pi * d / 8192) / √2,
              ⟨true, d, (currA : ℝ), (currB : ℝ)⟩)
        ∧ getDistance Real.pi (√2) ⟨false, d, lastA, lastB⟩ currA currB
          = ((((currA : ℝ) - lastA) - ((currB : ℝ) - lastB)) * (Real.pi * d / 8192) / √2,
              ⟨false, d, (currA : ℝ), (currB : ℝ)⟩))
      ∧ (∀ lastA lastB : ℤ,
          (getDistance Real.pi (√2) ⟨true, 2, (lastA : ℝ), (lastB : ℝ)⟩ (lastA + 8192) lastB).1
              = 2 * Real.pi / √2
            ∧ (getDistance Real.pi (√2) ⟨false, 2, (lastA : ℝ), (lastB : ℝ)⟩
                (lastA + 8192) lastB).1 = 2 * Real.pi / √2
            ∧ (getDistance Real.pi (√2) ⟨true, 2, (lastA : ℝ), (lastB : ℝ)⟩
                lastA (lastB + 8192)).1 = 2 * Real.pi / √2
            ∧ (getDistance Real.pi (√2) ⟨false, 2, (lastA : ℝ), (lastB : ℝ)⟩
                lastA (lastB + 8192)).1 = -(2 * Real.pi / √2))
      ∧ |2 * Real.pi / √2 - 4.443| < (0.001 : ℝ) := by
  refine ⟨?_, getDistance_full_turn, ?_⟩
  · intro d lastA lastB currA currB
    constructor
    · refine Prod.ext ?_ (getDistance_snd _ _ _ _ _)
      rw [getDistance_fst]; simp only [if_true]; ring
    · refine Prod.ext ?_ (getDistance_snd _ _ _ _ _)
      rw [getDistance_fst]; simp only [Bool.false_eq_true, if_false]; ring
  · obtain ⟨h1, h2⟩ := two_pi_div_sqrt_two_bounds
    rw [abs_lt]; constructor <;> linarith

/-- Claim C2, as stated, fails: a freshly constructed forward wheel of diameter 2 that reads
`(8192, 0)` returns `2π/√2`, which is not `π/√2` and is not within 0.001 of 2.221. -/
theorem full_turn_diameter_two_is_not_pi_div_sqrt_two :
    (getDistance Real.pi (√2) (DiagonalTrackingWheel.construct true 2) 8192 0).1
        = 2 * Real.pi / √2
      ∧ (getDistance Real.pi (√2) (DiagonalTrackingWheel.construct true 2) 8192 0).1
        ≠ Real.pi / √2
      ∧ ¬ |(getDistance Real.pi (√2) (DiagonalTrackingWheel.construct true 2) 8192 0).1
            - 2.221| < (0.001 : ℝ) := by
  have hv : (getDistance Real.pi (√2) (DiagonalTrackingWheel.construct true 2) 8192 0).1
      = 2 * Real.pi / √2 := by
    have h := (getDistance_full_turn 0 0).1
    simpa [DiagonalTrackingWheel.construct] using h
  obtain ⟨h1, h2⟩ := two_pi_div_sqrt_two_bounds
  refine ⟨hv, ?_, ?_⟩
  · rw [hv]
    intro h
    have h3 : 2 * Real.pi / √2 = 2 * (Real.pi / √2) := by ring
    rw [h3] at h h1
    linarith
  · rw [hv, abs_lt]
    intro h
    linarith [h.2]

/-! ## The lever sequencer: one cycle in each state -/

/-- Claim C4. For every position and every value of the auxiliary toggle, a cycle that
starts with `leverActive` and `leverGoingUp` both set commands the lever toward 270, with
speed 127 if `pos ≤ 10`, otherwise 127 if `pos ≥ 260`, otherwise 70 when the toggle is on
and 30 when it is off, whatever the buttons and their previous samples are. -/
theorem extending_cycle_command (lastR1 lastR2 r1 r2 : Bool) (pos : ℚ) (middleState : Bool) :
    (leverCycle ⟨true, true, lastR1, lastR2⟩ ⟨r1, r2, pos, middleState⟩).1
      = ⟨270, if pos ≤ 10 then 127 else if pos ≥ 260 then 127
                else if middleState = true then 70 else 30⟩ := by
  rw [leverCycle_extending]
  simp only [extendSpeed, LEVER_MAX, LEVER_SNAP_ZONE, LEVER_START_BOOST, LEVER_SPEED_BOOST,
    LEVER_SPEED_FAST, LEVER_SPEED_SLOW]
  norm_num

/-- Claim C5. For every position, a cycle that starts in the Extending state ends in the
Retracting state if and only if `pos ≥ 268`, and ends in Extending otherwise; in the
transition cycle (`pos ≥ 268`) the command is still the extending one, toward
`LEVER_MAX = 270` at the snap-zone speed 127. -/
theorem extending_cycle_transition (lastR1 lastR2 r1 r2 : Bool) (pos : ℚ)
    (middleState : Bool) :
    ((leverCycle ⟨true, true, lastR1, lastR2⟩ ⟨r1, r2, pos, middleState⟩).2.phase
        = LeverPhase.Retracting ↔ pos ≥ 268)
      ∧ ((leverCycle ⟨true, true, lastR1, lastR2⟩ ⟨r1, r2, pos, middleState⟩).2.phase
        = LeverPhase.Extending ↔ ¬ pos ≥ 268)
      ∧ (pos ≥ 268 →
          (leverCycle ⟨true, true, lastR1, lastR2⟩ ⟨r1, r2, pos, middleState⟩).1
              = ⟨LEVER_MAX, 127⟩
            ∧ LEVER_MAX = 270) := by
  rw [leverCycle_extending]
  have e : LEVER_MAX - 2 = 268 := by norm_num [LEVER_MAX]
  rw [e]
  refine ⟨?_, ?_, ?_⟩
  · by_cases h : pos ≥ 268 <;> simp [LeverStatics.phase, h]
  · by_cases h : pos ≥ 268 <;> simp [LeverStatics.phase, h]
  · intro h
    have h10 : ¬ pos ≤ 10 := by
      have : (268 : ℚ) ≤ pos := h
      intro hc
      linarith
    have h260 : pos ≥ 270 - 10 := by
      have : (268 : ℚ) ≤ pos := h
      show (270 : ℚ) - 10 ≤ pos
      linarith
    simp [extendSpeed, LEVER_MAX, LEVER_SNAP_ZONE, LEVER_START_BOOST, LEVER_SPEED_BOOST, h10,
      h260]

/-- Claim C5, at a concrete cycle: Extending, position 268, toggle off, buttons released. -/
theorem extending_cycle_transition_witness :
    (268 : ℚ) ≥ 268
      ∧ (leverCycle ⟨true, true, false, false⟩ ⟨false, false, 268, false⟩).1
          = ⟨LEVER_MAX, 127⟩
      ∧ LEVER_MAX = 270 :=
  ⟨le_refl _, (extending_cycle_transition false false false false 268 false).2.2 (le_refl _)⟩

/-- Claim C6. For every position and every value of the auxiliary toggle, a cycle that
starts in the Retracting state (`leverActive` set, `leverGoingUp` clear) commands the lever
toward `LEVER_MIN = 0` with speed 70 when the toggle is on and 30 when it is off,
independently of the position, and ends in Idle if and only if `pos ≤ 2`; otherwise it ends
in Retracting. -/
theorem retracting_cycle (lastR1 lastR2 r1 r2 : Bool) (pos : ℚ) (middleState : Bool) :
    (leverCycle ⟨true, false, lastR1, lastR2⟩ ⟨r1, r2, pos, middleState⟩).1
        = ⟨0, if middleState = true then 70 else 30⟩
      ∧ ((leverCycle ⟨true, false, lastR1, lastR2⟩ ⟨r1, r2, pos, middleState⟩).2.phase
        = LeverPhase.Idle ↔ pos ≤ 2)
      ∧ ((leverCycle ⟨true, false, lastR1, lastR2⟩ ⟨r1, r2, pos, middleState⟩).2.phase
        = LeverPhase.Retracting ↔ ¬ pos ≤ 2) := by
  rw [leverCycle_retracting]
  have e : LEVER_MIN + 2 = 2 := by norm_num [LEVER_MIN]
  rw [e]
  by_cases h : pos ≤ 2 <;>
    simp [LeverStatics.phase, h, LEVER_MIN, LEVER_SPEED_FAST, LEVER_SPEED_SLOW]

/-- Claim C7, as stated, fails: from Idle with the lever measured at 270 degrees, a rising
edge on R1 gives a cycle that ends in Retracting, not in Extending. -/
theorem idle_trigger_near_top_ends_retracting :
    r1Pressed ⟨false, true, false, false⟩ ⟨true, false, 270, false⟩ = true
      ∧ (leverCycle ⟨false, true, false, false⟩ ⟨true, false, 270, false⟩).2.phase
        = LeverPhase.Retracting
      ∧ (leverCycle ⟨false, true, false, false⟩ ⟨true, false, 270, false⟩).2.phase
        ≠ LeverPhase.Extending := by
  have h : (leverCycle ⟨false, true, false, false⟩ ⟨true, false, 270, false⟩).2.phase
      = LeverPhase.Retracting := by
    norm_num [leverCycle, r1Pressed, r2Pressed, LeverStatics.phase, LEVER_MAX]
  refine ⟨rfl, h, ?_⟩
  rw [h]
  decide

/-- Claim C7, as amended. For every Idle state, every position and every previous button
samples: a cycle in which R1 or R2 shows a rising edge (sampled true, previously sampled
false) runs the extending branch in that same cycle, so it commands the lever toward 270
and ends in Extending when `pos < 268` and in Retracting when `pos ≥ 268`; a cycle in which
neither button shows a rising edge leaves the sequencer Idle. -/
theorem idle_cycle_trigger (up lastR1 lastR2 r1 r2 : Bool) (pos : ℚ) (middleState : Bool) :
    (((r1 = true ∧ lastR1 = false) ∨ (r2 = true ∧ lastR2 = false)) →
        (leverCycle ⟨false, up, lastR1, lastR2⟩ ⟨r1, r2, pos, middleState⟩).1.position = 270
        ∧ (leverCycle ⟨false, up, lastR1, lastR2⟩ ⟨r1, r2, pos, middleState⟩).2.phase
          = if pos ≥ 268 then LeverPhase.Retracting else LeverPhase.Extending)
      ∧ (¬ ((r1 = true ∧ lastR1 = false) ∨ (r2 = true ∧ lastR2 = false)) →
        (leverCycle ⟨false, up, lastR1, lastR2⟩ ⟨r1, r2, pos, middleState⟩).2.phase
          = LeverPhase.Idle) := by
  constructor
  · intro h
    have h' : ((r1 && !lastR1) || (r2 && !lastR2)) = true := by
      rcases h with ⟨a, b⟩ | ⟨a, b⟩ <;> simp [a, b]
    rw [leverCycle_idle_edge _ _ _ _ _ _ _ h', leverCycle_extending]
    have e : LEVER_MAX - 2 = 268 := by norm_num [LEVER_MAX]
    rw [e]
    by_cases hp : pos ≥ 268 <;> simp [LeverStatics.phase, hp, LEVER_MAX]
  · intro h
    have h' : ((r1 && !lastR1) || (r2 && !lastR2)) = false := by
      cases r1 <;> cases r2 <;> cases lastR1 <;> cases lastR2 <;> simp_all
    rw [leverCycle_idle_no_edge _ _ _ _ _ _ _ h']
    simp [LeverStatics.phase]

/-- Claim C7 as amended, at two concrete Idle cycles with the lever at 5 degrees: one with a
rising edge on R2, one with R2 held from the cycle before. -/
theorem idle_cycle_trigger_witness :
    (((false = true ∧ false = false) ∨ (true = true ∧ false = false))
        ∧ (leverCycle ⟨false, true, false, false⟩ ⟨false, true, 5, false⟩).1.position = 270
        ∧ (leverCycle ⟨false, true, false, false⟩ ⟨false, true, 5, false⟩).2.phase
          = if (5 : ℚ) ≥ 268 then LeverPhase.Retracting else LeverPhase.Extending)
      ∧ (¬ ((false = true ∧ false = false) ∨ (true = true ∧ true = false))
        ∧ (leverCycle ⟨false, true, false, true⟩ ⟨false, true, 5, false⟩).2.phase
          = LeverPhase.Idle) :=
  ⟨⟨Or.inr ⟨rfl, rfl⟩,
      (idle_cycle_trigger true false false false true 5 false).1 (Or.inr ⟨rfl, rfl⟩)⟩,
    ⟨by decide, (idle_cycle_trigger true false true false true 5 false).2 (by decide)⟩⟩

/-- Claim C8. For every active state (Extending or Retracting), every position and every
value of the auxiliary toggle, the command issued by a cycle and the flags `leverActive`,
`leverGoingUp` at its end do not depend on the button samples or on the previous button
samples: a cycle carrying a rising edge on R1 and/or R2 yields the same command and the same
next lever state as the same cycle without any edge. -/
theorem active_cycle_ignores_triggers (up lastR1 lastR2 r1 r2 lastR1' lastR2' r1' r2' : Bool)
    (pos : ℚ) (middleState : Bool) :
    (leverCycle ⟨true, up, lastR1, lastR2⟩ ⟨r1, r2, pos, middleState⟩).1
        = (leverCycle ⟨true, up, lastR1', lastR2'⟩ ⟨r1', r2', pos, middleState⟩).1
      ∧ (leverCycle ⟨true, up, lastR1, lastR2⟩ ⟨r1, r2, pos, middleState⟩).2.leverActive
        = (leverCycle ⟨true, up, lastR1', lastR2'⟩ ⟨r1', r2', pos, middleState⟩).2.leverActive
      ∧ (leverCycle ⟨true, up, lastR1, lastR2⟩ ⟨r1, r2, pos, middleState⟩).2.leverGoingUp
        = (leverCycle ⟨true, up, lastR1', lastR2'⟩ ⟨r1', r2', pos, middleState⟩).2.leverGoingUp
        := by
  cases up
  · simp [leverCycle_retracting]
  · simp [leverCycle_extending]

/-! ## The lever sequencer: the full-cycle scenario -/

/-- Claim C9, as stated, fails. With the auxiliary toggle off, the sixth cycle of the
scenario (position 270, after the state became Retracting at the 268 sample) commands
`(0, 30)`, not speed 127, and the tenth cycle (position 0, after the state became Idle at
the sample 2) commands the idle hold `(0, 50)`, not speed 30. -/
theorem full_cycle_scenario_speeds_differ :
    ((leverRun LeverStatics.initial (fullCycleScenario false)).map (fun r => r.1))[5]?
        = some ⟨0, 30⟩
      ∧ ((leverRun LeverStatics.initial (fullCycleScenario false)).map (fun r => r.1))[9]?
        = some ⟨0, 50⟩
      ∧ ((leverRun LeverStatics.initial (fullCycleScenario false)).map (fun r => r.1)).map
          (fun c => c.velocity)
        ≠ [127, 127, 30, 127, 127, 127, 30, 30, 30, 30] := by
  refine ⟨?_, ?_, ?_⟩
  · rw [fullCycleScenario_commands_off]; rfl
  · rw [fullCycleScenario_commands_off]; rfl
  · rw [fullCycleScenario_commands_off]; decide

/-- Claim C9, as amended. Starting Idle with a trigger edge firing at position 0, the state
becomes Extending; the positions 0, 5, 50, 260, 268 yield the speeds 127, 127, c, 127, 127
toward 270, where c is 70 if the auxiliary toggle is on and 30 otherwise, and the state
becomes Retracting upon the 268 sample; the following samples 270, 260, 50, 2 are
retracting cycles commanded toward 0 at speed c, and the state returns to Idle at the
sample 2; the last sample 0 is an idle cycle that holds position 0 at speed 50. -/
theorem full_cycle_scenario (middleState : Bool) :
    (leverRun LeverStatics.initial (fullCycleScenario middleState)).map
        (fun r => (r.1, r.2.phase))
      = [(⟨270, 127⟩, LeverPhase.Extending),
         (⟨270, 127⟩, LeverPhase.Extending),
         (⟨270, if middleState = true then 70 else 30⟩, LeverPhase.Extending),
         (⟨270, 127⟩, LeverPhase.Extending),
         (⟨270, 127⟩, LeverPhase.Retracting),
         (⟨0, if middleState = true then 70 else 30⟩, LeverPhase.Retracting),
         (⟨0, if middleState = true then 70 else 30⟩, LeverPhase.Retracting),
         (⟨0, if middleState = true then 70 else 30⟩, LeverPhase.Retracting),
         (⟨0, if middleState = true then 70 else 30⟩, LeverPhase.Idle),
         (⟨0, 50⟩, LeverPhase.Idle)] := by
  cases middleState <;>
    norm_num [leverRun, leverCycle, fullCycleScenario, LeverStatics.initial, r1Pressed,
      r2Pressed, extendSpeed, LeverStatics.phase, LEVER_MAX, LEVER_MIN, LEVER_SNAP_ZONE,
      LEVER_START_BOOST, LEVER_SPEED_BOOST, LEVER_SPEED_FAST, LEVER_SPEED_SLOW]

/-! ## The edge detection of the trigger buttons -/

/-- Claim C10. The lever section runs for any number of cycles from statics whose stored
button samples are false, in any lever state and with any positions and toggle values.
For R1 and for R2 alike: an edge is computed in cycle `i` if and only if sample `i` is true
and `i = 0` or sample `i − 1` is false; the number of edges is the number of false-to-true
transitions of the sample stream; no edge follows a true sample directly; and for the
samples `[F, F, T, T, T, F, T]` the edges are exactly those of cycles 2 and 6, two in
all. -/
theorem edge_detector_emits_rising_edges (active up : Bool) (ins : List CycleInput) :
    (∀ i : ℕ, ((pressedTrace ⟨active, up, false, false⟩ ins).map Prod.fst)[i]? = some true ↔
        (ins.map CycleInput.r1)[i]? = some true
          ∧ (i = 0 ∨ (ins.map CycleInput.r1)[i - 1]? = some false))
      ∧ (∀ i : ℕ, ((pressedTrace ⟨active, up, false, false⟩ ins).map Prod.snd)[i]? = some true ↔
        (ins.map CycleInput.r2)[i]? = some true
          ∧ (i = 0 ∨ (ins.map CycleInput.r2)[i - 1]? = some false))
      ∧ ((pressedTrace ⟨active, up, false, false⟩ ins).map Prod.fst).count true
        = risingTransitions (ins.map CycleInput.r1)
      ∧ ((pressedTrace ⟨active, up, false, false⟩ ins).map Prod.snd).count true
        = risingTransitions (ins.map CycleInput.r2)
      ∧ (∀ i : ℕ, (ins.map CycleInput.r1)[i]? = some true →
        ((pressedTrace ⟨active, up, false, false⟩ ins).map Prod.fst)[i + 1]? ≠ some true)
      ∧ (∀ i : ℕ, (ins.map CycleInput.r2)[i]? = some true →
        ((pressedTrace ⟨active, up, false, false⟩ ins).map Prod.snd)[i + 1]? ≠ some true)
      ∧ (ins.map CycleInput.r1 = [false, false, true, true, true, false, true] →
        (pressedTrace ⟨active, up, false, false⟩ ins).map Prod.fst
            = [false, false, true, false, false, false, true]
          ∧ ((pressedTrace ⟨active, up, false, false⟩ ins).map Prod.fst).count true = 2)
      ∧ (ins.map CycleInput.r2 = [false, false, true, true, true, false, true] →
        (pressedTrace ⟨active, up, false, false⟩ ins).map Prod.snd
            = [false, false, true, false, false, false, true]
          ∧ ((pressedTrace ⟨active, up, false, false⟩ ins).map Prod.snd).count true = 2) := by
  rw [pressedTrace_map_fst, pressedTrace_map_snd]
  refine ⟨fun i => edgeStream_false_getElem? _ i, fun i => edgeStream_false_getElem? _ i,
    edgeStream_count _ _, edgeStream_count _ _, fun i h => edgeStream_held _ i h,
    fun i h => edgeStream_held _ i h, ?_, ?_⟩
  · intro h
    simp only [h]
    decide
  · intro h
    simp only [h]
    decide

/-- Claim C10, at the concrete stream `[F, F, T, T, T, F, T]` fed to R1 from the initial
statics. -/
theorem edge_detector_emits_rising_edges_witness :
    edgeExampleInputs.map CycleInput.r1 = [false, false, true, true, true, false, true]
      ∧ (pressedTrace ⟨false, true, false, false⟩ edgeExampleInputs).map Prod.fst
        = [false, false, true, false, false, false, true]
      ∧ ((pressedTrace ⟨false, true, false, false⟩ edgeExampleInputs).map Prod.fst).count true
        = 2 :=
  ⟨rfl, (edge_detector_emits_rising_edges false true edgeExampleInputs).2.2.2.2.2.2.1 rfl⟩

/-! ## Further lemmas -/

/-- The sum of the distances returned by a run of calls telescopes to the difference of
the stored readings after and before the run. -/
theorem getDistances_sum {α : Type} [Field α] (p q : α) (w : DiagonalTrackingWheel α)
    (rs : List (ℤ × ℤ)) :
    (getDistances p q w rs).1.sum =
      if w.isVertical = true then
        (((getDistances p q w rs).2.lastA - w.lastA)
          + ((getDistances p q w rs).2.lastB - w.lastB)) * (p * w.wheelDiameter / 8192) / q
      else
        (((getDistances p q w rs).2.lastA - w.lastA)
          - ((getDistances p q w rs).2.lastB - w.lastB)) * (p * w.wheelDiameter / 8192) / q := by
  induction rs generalizing w with
  | nil => simp [getDistances]
  | cons r rest ih =>
    obtain ⟨a, b⟩ := r
    simp only [getDistances, List.sum_cons]
    rw [ih, getDistance_fst, getDistance_snd]
    by_cases h : w.isVertical = true
    · simp only [h, if_true]; ring
    · simp only [h, Bool.false_eq_true, if_false]; ring

/-- A call that reads the values the call before it read returns 0 and changes nothing. -/
theorem getDistance_twice {α : Type} [Field α] (p q : α) (w : DiagonalTrackingWheel α)
    (a b : ℤ) :
    getDistance p q (getDistance p q w a b).2 a b = (0, (getDistance p q w a b).2) := by
  refine Prod.ext ?_ ?_
  · rw [getDistance_fst, getDistance_snd]
    by_cases h : w.isVertical = true <;> simp [h]
  · rw [getDistance_snd, getDistance_snd]

theorem extendSpeed_mem (leverMax snapZone startBoost pos : ℚ) (m : Bool) :
    extendSpeed leverMax snapZone startBoost pos m = 30
      ∨ extendSpeed leverMax snapZone startBoost pos m = 70
      ∨ extendSpeed leverMax snapZone startBoost pos m = 127 := by
  unfold extendSpeed
  split_ifs <;> simp [LEVER_SPEED_BOOST, LEVER_SPEED_FAST, LEVER_SPEED_SLOW]

/-- One cycle of the lever section is one cycle of the three-state machine under the map
`LeverStatics.phase`. -/
theorem leverCycle_phase (s : LeverStatics) (i : CycleInput) :
    specSequencerCycle s.phase (r1Pressed s i || r2Pressed s i) i.pos i.middleState
      = ((leverCycle s i).1, (leverCycle s i).2.phase) := by
  obtain ⟨act, up, l1, l2⟩ := s
  obtain ⟨r1, r2, pos, m⟩ := i
  have e1 : LEVER_MAX - 2 = 270 - 2 := rfl
  have e2 : LEVER_MIN + 2 = 0 + 2 := rfl
  cases act
  · cases he : ((r1 && !l1) || (r2 && !l2))
    · rw [leverCycle_idle_no_edge _ _ _ _ _ _ _ he]
      simp [specSequencerCycle, LeverStatics.phase, r1Pressed, r2Pressed, he]
    · rw [leverCycle_idle_edge _ _ _ _ _ _ _ he, leverCycle_extending, e1]
      by_cases hp : pos ≥ 270 - 2 <;>
        simp [specSequencerCycle, LeverStatics.phase, r1Pressed, r2Pressed, he, hp,
          extendSpeed, LEVER_MAX, LEVER_SNAP_ZONE, LEVER_START_BOOST, LEVER_SPEED_BOOST,
          LEVER_SPEED_FAST, LEVER_SPEED_SLOW]
  · cases up
    · rw [leverCycle_retracting, e2]
      by_cases hp : pos ≤ 2
      · simp [specSequencerCycle, LeverStatics.phase, hp, not_lt.mpr hp, LEVER_MIN,
          LEVER_SPEED_FAST, LEVER_SPEED_SLOW]
      · simp [specSequencerCycle, LeverStatics.phase, hp, not_le.mp hp, LEVER_MIN,
          LEVER_SPEED_FAST, LEVER_SPEED_SLOW]
    · rw [leverCycle_extending, e1]
      by_cases hp : pos ≥ 270 - 2 <;>
        simp [specSequencerCycle, LeverStatics.phase, hp,
          extendSpeed, LEVER_MAX, LEVER_SNAP_ZONE, LEVER_START_BOOST, LEVER_SPEED_BOOST,
          LEVER_SPEED_FAST, LEVER_SPEED_SLOW]

theorem leverRun_phase (s : LeverStatics) (ins : List CycleInput) :
    (leverRun s ins).map (fun r => (r.1, r.2.phase))
      = specSequencerRun s.phase (sequencerInputs s ins) := by
  induction ins generalizing s with
  | nil => rfl
  | cons i rest ih =>
    simp only [leverRun, sequencerInputs, specSequencerRun, List.map_cons, ih,
      leverCycle_phase]

theorem sequencerInputs_congr (s t : LeverStatics) (ins : List CycleInput)
    (h1 : s.lastR1 = t.lastR1) (h2 : s.lastR2 = t.lastR2) :
    sequencerInputs s ins = sequencerInputs t ins := by
  induction ins generalizing s t with
  | nil => rfl
  | cons i rest ih =>
    simp only [sequencerInputs, r1Pressed, r2Pressed, h1, h2]
    rw [ih (leverCycle s i).2 (leverCycle t i).2 rfl rfl]

theorem previousReading_of_ne_nil (rs : List (ℤ × ℤ)) (h : rs ≠ []) :
    previousReading rs = rs.getLast h := by
  unfold previousReading
  rw [List.getLast?_eq_getLast rs h]
  rfl

theorem edgeStream_held_true (xs : List Bool) (h : ∀ x ∈ xs, x = true) :
    ∀ e ∈ edgeStream true xs, e = false := by
  induction xs with
  | nil => intro e he; simp [edgeStream] at he
  | cons x rest ih =>
    have hx : x = true := h x (List.mem_cons_self _ _)
    subst hx
    intro e he
    rw [edgeStream_cons] at he
    rcases List.mem_cons.mp he with h0 | h1
    · simpa using h0
    · exact ih (fun y hy => h y (List.mem_cons_of_mem _ hy)) e h1

/-- From Idle, cycles without a rising edge on either button are idle holds. -/
theorem leverRun_idle_no_edges (s : LeverStatics) (ins : List CycleInput)
    (hs : s.leverActive = false)
    (h1 : ∀ e ∈ edgeStream s.lastR1 (ins.map CycleInput.r1), e = false)
    (h2 : ∀ e ∈ edgeStream s.lastR2 (ins.map CycleInput.r2), e = false) :
    ∀ r ∈ leverRun s ins, r.2.leverActive = false ∧ r.1.velocity = 50 := by
  induction ins generalizing s with
  | nil => intro r hr; simp [leverRun] at hr
  | cons i rest ih =>
    obtain ⟨act, up, l1, l2⟩ := s
    obtain ⟨r1, r2, pos, m⟩ := i
    simp only at hs
    subst hs
    simp only [List.map_cons, edgeStream_cons] at h1 h2
    have e1 : (r1 && !l1) = false := h1 _ (List.mem_cons_self _ _)
    have e2 : (r2 && !l2) = false := h2 _ (List.mem_cons_self _ _)
    have he : ((r1 && !l1) || (r2 && !l2)) = false := by rw [e1, e2]; rfl
    have hc := leverCycle_idle_no_edge up l1 l2 r1 r2 pos m he
    intro r hr
    simp only [leverRun, hc] at hr
    rcases List.mem_cons.mp hr with h0 | h3
    · subst h0; exact ⟨rfl, rfl⟩
    · exact ih ⟨false, up, r1, r2⟩ rfl
        (fun e he => h1 e (List.mem_cons_of_mem _ he))
        (fun e he => h2 e (List.mem_cons_of_mem _ he)) r h3

/-- Without rising edges after the first cycle, a run that is Idle after some cycle is Idle
after every later cycle, and every later cycle is an idle hold. -/
theorem leverRun_idle_persists (s : LeverStatics) (ins : List CycleInput)
    (h1 : ∀ e ∈ (edgeStream s.lastR1 (ins.map CycleInput.r1)).tail, e = false)
    (h2 : ∀ e ∈ (edgeStream s.lastR2 (ins.map CycleInput.r2)).tail, e = false)
    (j k : ℕ) (rj rk : MoveAbsolute × LeverStatics) (hjk : j ≤ k)
    (hj : (leverRun s ins)[j]? = some rj) (hk : (leverRun s ins)[k]? = some rk)
    (hidle : rj.2.leverActive = false) :
    rk.2.leverActive = false ∧ (j < k → rk.1.velocity = 50) := by
  induction ins generalizing s j k with
  | nil => simp [leverRun] at hj
  | cons i rest ih =>
    simp only [List.map_cons, edgeStream_cons, List.tail_cons] at h1 h2
    simp only [leverRun] at hj hk
    cases k with
    | zero =>
      have hj0 : j = 0 := Nat.le_zero.mp hjk
      subst hj0
      rw [hj] at hk
      cases hk
      exact ⟨hidle, fun h => absurd h (lt_irrefl _)⟩
    | succ k' =>
      rw [List.getElem?_cons_succ] at hk
      cases j with
      | zero =>
        rw [List.getElem?_cons_zero] at hj
        cases hj
        have hall := leverRun_idle_no_edges (leverCycle s i).2 rest hidle h1 h2 rk
          (List.mem_iff_getElem?.mpr ⟨k', hk⟩)
        exact ⟨hall.1, fun _ => hall.2⟩
      | succ j' =>
        rw [List.getElem?_cons_succ] at hj
        have hres := ih (leverCycle s i).2
          (fun e he => h1 e (List.mem_of_mem_tail he))
          (fun e he => h2 e (List.mem_of_mem_tail he))
          j' k' (Nat.le_of_succ_le_succ hjk) hj hk
        exact ⟨hres.1, fun h => hres.2 (Nat.lt_of_succ_lt_succ h)⟩

theorem phase_idle_iff (s : LeverStatics) :
    s.phase = LeverPhase.Idle ↔ s.leverActive = false := by
  obtain ⟨act, up, l1, l2⟩ := s
  cases act <;> cases up <;> simp [LeverStatics.phase]

theorem afterTrigger_active (s : LeverStatics) (i : CycleInput) (h : s.leverActive = true) :
    afterTrigger s i = s := by
  simp [afterTrigger, h]

theorem pressedTrace_no_edges (s : LeverStatics) (ins : List CycleInput)
    (h1 : ∀ e ∈ edgeStream s.lastR1 (ins.map CycleInput.r1), e = false)
    (h2 : ∀ e ∈ edgeStream s.lastR2 (ins.map CycleInput.r2), e = false) :
    ∀ e ∈ pressedTrace s ins, e = (false, false) := by
  intro e he
  have hf : e.1 ∈ (pressedTrace s ins).map Prod.fst := List.mem_map_of_mem _ he
  have hs : e.2 ∈ (pressedTrace s ins).map Prod.snd := List.mem_map_of_mem _ he
  rw [pressedTrace_map_fst] at hf
  rw [pressedTrace_map_snd] at hs
  exact Prod.ext (h1 _ hf) (h2 _ hs)

/-! ## The lever sequencer: idle hold -/

/-- Claim C11. For every position, a cycle that starts Idle and sees no rising edge on R1
or R2 issues the command `(target = pos, speed = 50)`, whose speed is not zero, and leaves
`leverActive` false and `leverGoingUp` as it was. -/
theorem idle_cycle_holds_position (up lastR1 lastR2 r1 r2 : Bool) (pos : ℚ)
    (middleState : Bool)
    (h1 : ¬ (r1 = true ∧ lastR1 = false)) (h2 : ¬ (r2 = true ∧ lastR2 = false)) :
    (leverCycle ⟨false, up, lastR1, lastR2⟩ ⟨r1, r2, pos, middleState⟩).1 = ⟨pos, 50⟩
      ∧ (leverCycle ⟨false, up, lastR1, lastR2⟩ ⟨r1, r2, pos, middleState⟩).1.velocity ≠ 0
      ∧ (leverCycle ⟨false, up, lastR1, lastR2⟩ ⟨r1, r2, pos, middleState⟩).2.leverActive
        = false
      ∧ (leverCycle ⟨false, up, lastR1, lastR2⟩ ⟨r1, r2, pos, middleState⟩).2.leverGoingUp
        = up := by
  have h' : ((r1 && !lastR1) || (r2 && !lastR2)) = false := by
    cases r1 <;> cases r2 <;> cases lastR1 <;> cases lastR2 <;> simp_all
  rw [leverCycle_idle_no_edge _ _ _ _ _ _ _ h']
  simp

/-- Claim C11, at a concrete cycle: Idle, R1 held from the cycle before, R2 released,
position 1. -/
theorem idle_cycle_holds_position_witness :
    ¬ (true = true ∧ true = false) ∧ ¬ (false = true ∧ false = false)
      ∧ (leverCycle ⟨false, false, true, false⟩ ⟨true, false, 1, true⟩).1 = ⟨1, 50⟩
      ∧ (leverCycle ⟨false, false, true, false⟩ ⟨true, false, 1, true⟩).1.velocity ≠ 0
      ∧ (leverCycle ⟨false, false, true, false⟩ ⟨true, false, 1, true⟩).2.leverActive = false
      ∧ (leverCycle ⟨false, false, true, false⟩ ⟨true, false, 1, true⟩).2.leverGoingUp
        = false :=
  ⟨by decide, by decide,
    idle_cycle_holds_position false true false true false 1 true (by decide) (by decide)⟩

/-! ## The diagonal tracking wheel: failed reads -/

/-- Claim C15. For every lever state, position, auxiliary-toggle value and button input,
the command of a cycle has a speed among 30, 50, 70 and 127, hence within `[0, 127]`, and
its target is `LEVER_MAX` when the cycle runs the extending branch, `LEVER_MIN` when it
runs the retracting branch, and the measured position when it runs the idle branch; the
branch is the one selected by the flags after the trigger test of lines 164-167. -/
theorem command_speed_and_target (s : LeverStatics) (i : CycleInput) :
    ((leverCycle s i).1.velocity = 30 ∨ (leverCycle s i).1.velocity = 50
        ∨ (leverCycle s i).1.velocity = 70 ∨ (leverCycle s i).1.velocity = 127)
      ∧ 0 ≤ (leverCycle s i).1.velocity ∧ (leverCycle s i).1.velocity ≤ 127
      ∧ (leverCycle s i).1.position
        = (match (afterTrigger s i).phase with
          | LeverPhase.Extending => LEVER_MAX
          | LeverPhase.Retracting => LEVER_MIN
          | LeverPhase.Idle => i.pos) := by
  have hv : ((leverCycle s i).1.velocity = 30 ∨ (leverCycle s i).1.velocity = 50
        ∨ (leverCycle s i).1.velocity = 70 ∨ (leverCycle s i).1.velocity = 127)
      ∧ (leverCycle s i).1.position
        = (match (afterTrigger s i).phase with
          | LeverPhase.Extending => LEVER_MAX
          | LeverPhase.Retracting => LEVER_MIN
          | LeverPhase.Idle => i.pos) := by
    obtain ⟨act, up, l1, l2⟩ := s
    obtain ⟨r1, r2, pos, m⟩ := i
    cases act
    · cases he : ((r1 && !l1) || (r2 && !l2))
      · rw [leverCycle_idle_no_edge _ _ _ _ _ _ _ he]
        simp [afterTrigger, LeverStatics.phase, r1Pressed, r2Pressed, he]
      · rw [leverCycle_idle_edge _ _ _ _ _ _ _ he, leverCycle_extending]
        refine ⟨?_, ?_⟩
        · rcases extendSpeed_mem LEVER_MAX LEVER_SNAP_ZONE LEVER_START_BOOST pos m
            with h | h | h <;> simp [h]
        · simp [afterTrigger, LeverStatics.phase, r1Pressed, r2Pressed, he]
    · cases up
      · rw [leverCycle_retracting]
        refine ⟨?_, ?_⟩
        · cases m <;> simp [LEVER_SPEED_FAST, LEVER_SPEED_SLOW]
        · simp [afterTrigger, LeverStatics.phase]
      · rw [leverCycle_extending]
        refine ⟨?_, ?_⟩
        · rcases extendSpeed_mem LEVER_MAX LEVER_SNAP_ZONE LEVER_START_BOOST pos m
            with h | h | h <;> simp [h]
        · simp [afterTrigger, LeverStatics.phase]
  refine ⟨hv.1, ?_, ?_, hv.2⟩
  · rcases hv.1 with h | h | h | h <;> rw [h] <;> norm_num
  · rcases hv.1 with h | h | h | h <;> rw [h] <;> norm_num

/-! ## The diagonal tracking wheel: telescoping -/

/-- Claim C16. For a freshly constructed instance and every non-empty sequence of readings
passed to successive `getDistance` calls, the returned distances add up to
`(aₙ + bₙ)·(π·d/8192)/√2` for the forward orientation and to `(aₙ − bₙ)·(π·d/8192)/√2`
for the lateral one, where `(aₙ, bₙ)` is the last reading (over the reals); in particular
the first call returns `(a + b)·(π·d/8192)/√2`, respectively `(a − b)·(π·d/8192)/√2`, for
the absolute counts `(a, b)` it reads. -/
theorem distances_telescope (d : ℝ) (readings : List (ℤ × ℤ)) (h : readings ≠ []) :
    (getDistances Real.pi (√2) (DiagonalTrackingWheel.construct true d) readings).1.sum
        = (((readings.getLast h).1 : ℝ) + ((readings.getLast h).2 : ℝ))
            * (Real.pi * d / 8192) / √2
      ∧ (getDistances Real.pi (√2) (DiagonalTrackingWheel.construct false d) readings).1.sum
        = (((readings.getLast h).1 : ℝ) - ((readings.getLast h).2 : ℝ))
            * (Real.pi * d / 8192) / √2
      ∧ (∀ a b : ℤ,
          (getDistance Real.pi (√2) (DiagonalTrackingWheel.construct true d) a b).1
              = ((a : ℝ) + (b : ℝ)) * (Real.pi * d / 8192) / √2
            ∧ (getDistance Real.pi (√2) (DiagonalTrackingWheel.construct false d) a b).1
              = ((a : ℝ) - (b : ℝ)) * (Real.pi * d / 8192) / √2) := by
  refine ⟨?_, ?_, ?_⟩
  · rw [getDistances_sum, getDistances_construct_snd, previousReading_of_ne_nil readings h]
    simp [DiagonalTrackingWheel.construct]
  · rw [getDistances_sum, getDistances_construct_snd, previousReading_of_ne_nil readings h]
    simp [DiagonalTrackingWheel.construct]
  · intro a b
    simp only [getDistance_fst, DiagonalTrackingWheel.construct, if_true, Bool.false_eq_true,
      if_false]
    constructor <;> ring

/-- Claim C16, at a concrete run: diameter 2, readings `(5, 2)` then `(3, 7)`. -/
theorem distances_telescope_witness :
    ([((5 : ℤ), (2 : ℤ)), (3, 7)] : List (ℤ × ℤ)) ≠ []
      ∧ (getDistances Real.pi (√2) (DiagonalTrackingWheel.construct true 2)
          [(5, 2), (3, 7)]).1.sum
        = ((((3 : ℤ) : ℝ)) + (((7 : ℤ) : ℝ))) * (Real.pi * 2 / 8192) / √2 :=
  ⟨by simp, (distances_telescope 2 [(5, 2), (3, 7)] (by simp)).1⟩

/-! ## The lever sequencer: held buttons, the three-state machine -/

/-- Claim C17. The lever is active in the first cycle of a run; in that cycle one trigger
button goes from false to true, it stays true in every following cycle, and the other
trigger button shows no rising edge in the following cycles. Then the trigger test of the
first cycle changes nothing, no edge is computed for either button in any following cycle,
and once the lever is Idle at the end of a cycle it is Idle at the end of every later
cycle, each of which issues the idle hold at speed 50. -/
theorem held_button_lockout (s : LeverStatics) (i0 : CycleInput) (rest : List CycleInput)
    (hact : s.leverActive = true)
    (hheld :
      (s.lastR1 = false ∧ i0.r1 = true ∧ (∀ i ∈ rest, i.r1 = true)
          ∧ ∀ e ∈ edgeStream i0.r2 (rest.map CycleInput.r2), e = false)
        ∨ (s.lastR2 = false ∧ i0.r2 = true ∧ (∀ i ∈ rest, i.r2 = true)
          ∧ ∀ e ∈ edgeStream i0.r1 (rest.map CycleInput.r1), e = false))
    (j k : ℕ) (rj rk : MoveAbsolute × LeverStatics) (hjk : j ≤ k)
    (hj : (leverRun s (i0 :: rest))[j]? = some rj)
    (hk : (leverRun s (i0 :: rest))[k]? = some rk)
    (hidle : rj.2.phase = LeverPhase.Idle) :
    rk.2.phase = LeverPhase.Idle
      ∧ (j < k → rk.1.velocity = 50)
      ∧ afterTrigger s i0 = s
      ∧ ∀ e ∈ (pressedTrace s (i0 :: rest)).tail, e = (false, false) := by
  have hedges : (∀ e ∈ edgeStream i0.r1 (rest.map CycleInput.r1), e = false)
      ∧ ∀ e ∈ edgeStream i0.r2 (rest.map CycleInput.r2), e = false := by
    rcases hheld with ⟨_, h1, hall, hother⟩ | ⟨_, h2, hall, hother⟩
    · refine ⟨?_, hother⟩
      rw [h1]
      exact edgeStream_held_true _ (by
        intro x hx
        obtain ⟨i, hi, rfl⟩ := List.mem_map.mp hx
        exact hall i hi)
    · refine ⟨hother, ?_⟩
      rw [h2]
      exact edgeStream_held_true _ (by
        intro x hx
        obtain ⟨i, hi, rfl⟩ := List.mem_map.mp hx
        exact hall i hi)
  have hp := leverRun_idle_persists s (i0 :: rest)
    (by simpa [edgeStream_cons] using hedges.1)
    (by simpa [edgeStream_cons] using hedges.2)
    j k rj rk hjk hj hk ((phase_idle_iff _).mp hidle)
  refine ⟨(phase_idle_iff _).mpr hp.1, hp.2, afterTrigger_active s i0 hact, ?_⟩
  simp only [pressedTrace, List.tail_cons]
  exact pressedTrace_no_edges _ _ hedges.1 hedges.2

/-- Claim C17, at a concrete run: Retracting at position 1 when R1 is first pressed, then
R1 held for two more cycles at position 0. -/
theorem held_button_lockout_witness :
    (⟨true, false, false, false⟩ : LeverStatics).leverActive = true
      ∧ ((⟨true, false, false, false⟩ : LeverStatics).lastR1 = false
        ∧ (⟨true, false, 1, false⟩ : CycleInput).r1 = true
        ∧ (∀ i ∈ [(⟨true, false, 0, false⟩ : CycleInput), ⟨true, false, 0, false⟩],
            i.r1 = true)
        ∧ ∀ e ∈ edgeStream (⟨true, false, 1, false⟩ : CycleInput).r2
            ([(⟨true, false, 0, false⟩ : CycleInput), ⟨true, false, 0, false⟩].map
              CycleInput.r2), e = false)
      ∧ (leverRun ⟨true, false, false, false⟩
          [⟨true, false, 1, false⟩, ⟨true, false, 0, false⟩, ⟨true, false, 0, false⟩])[0]?
        = some (⟨0, 30⟩, ⟨false, false, true, false⟩)
      ∧ (leverRun ⟨true, false, false, false⟩
          [⟨true, false, 1, false⟩, ⟨true, false, 0, false⟩, ⟨true, false, 0, false⟩])[2]?
        = some (⟨0, 50⟩, ⟨false, false, true, false⟩)
      ∧ (⟨false, false, true, false⟩ : LeverStatics).phase = LeverPhase.Idle
      ∧ ((0 : ℕ) < 2 → ((⟨0, 50⟩ : MoveAbsolute), (⟨false, false, true, false⟩ : LeverStatics)).1.velocity = 50) := by
  have hrun : leverRun ⟨true, false, false, false⟩
      [⟨true, false, 1, false⟩, ⟨true, false, 0, false⟩, ⟨true, false, 0, false⟩]
      = [(⟨0, 30⟩, ⟨false, false, true, false⟩), (⟨0, 50⟩, ⟨false, false, true, false⟩),
          (⟨0, 50⟩, ⟨false, false, true, false⟩)] := by
    norm_num [leverRun, leverCycle, r1Pressed, r2Pressed, LEVER_MIN, LEVER_SPEED_SLOW]
  have hheld : ((⟨true, false, false, false⟩ : LeverStatics).lastR1 = false
        ∧ (⟨true, false, 1, false⟩ : CycleInput).r1 = true
        ∧ (∀ i ∈ [(⟨true, false, 0, false⟩ : CycleInput), ⟨true, false, 0, false⟩],
            i.r1 = true)
        ∧ ∀ e ∈ edgeStream (⟨true, false, 1, false⟩ : CycleInput).r2
            ([(⟨true, false, 0, false⟩ : CycleInput), ⟨true, false, 0, false⟩].map
              CycleInput.r2), e = false) := by
    refine ⟨rfl, rfl, ?_, ?_⟩
    · intro i hi; simp at hi; rw [hi]
    · intro e he; simp [edgeStream] at he; exact he
  have hj : (leverRun ⟨true, false, false, false⟩
      [⟨true, false, 1, false⟩, ⟨true, false, 0, false⟩, ⟨true, false, 0, false⟩])[0]?
      = some (⟨0, 30⟩, ⟨false, false, true, false⟩) := by rw [hrun]; rfl
  have hk : (leverRun ⟨true, false, false, false⟩
      [⟨true, false, 1, false⟩, ⟨true, false, 0, false⟩, ⟨true, false, 0, false⟩])[2]?
      = some (⟨0, 50⟩, ⟨false, false, true, false⟩) := by rw [hrun]; rfl
  exact ⟨rfl, hheld, hj, hk, rfl,
    (held_button_lockout ⟨true, false, false, false⟩ ⟨true, false, 1, false⟩
      [⟨true, false, 0, false⟩, ⟨true, false, 0, false⟩] rfl (Or.inl hheld) 0 2 _ _
      (by decide) hj hk rfl).2.1⟩

/-- Claim C18. Under the map not active ↦ Idle, (active, going up) ↦ Extending,
(active, not going up) ↦ Retracting, every run of the lever section yields, cycle by cycle,
the commands and the states of the three-state machine of the specification run on the
same trigger edges, positions and toggle values. In particular two runs that start Idle
with the same stored button samples and differ only in `leverGoingUp` yield the same
commands and the same mapped states in every cycle. -/
theorem two_flags_refine_three_states :
    (∀ (s : LeverStatics) (ins : List CycleInput),
        (leverRun s ins).map (fun r => (r.1, r.2.phase))
          = specSequencerRun s.phase (sequencerInputs s ins))
      ∧ (∀ (lastR1 lastR2 : Bool) (ins : List CycleInput),
        (leverRun ⟨false, true, lastR1, lastR2⟩ ins).map (fun r => (r.1, r.2.phase))
          = (leverRun ⟨false, false, lastR1, lastR2⟩ ins).map (fun r => (r.1, r.2.phase))) := by
  refine ⟨leverRun_phase, ?_⟩
  intro lastR1 lastR2 ins
  rw [leverRun_phase, leverRun_phase,
    sequencerInputs_congr ⟨false, true, lastR1, lastR2⟩ ⟨false, false, lastR1, lastR2⟩ ins
      rfl rfl]
  rfl

/-! ## Lemmas about binary64 arithmetic -/

theorem F64.round_zero : F64.round 0 = F64.fin 0 := by
  simp [F64.round]

theorem roundHalfEven_intCast (n : ℤ) : roundHalfEven (n : ℚ) = n := by
  simp [roundHalfEven]

theorem le_roundHalfEven (n : ℤ) (x : ℚ) (h : (n : ℚ) ≤ x) : n ≤ roundHalfEven x := by
  have hf : n ≤ ⌊x⌋ := Int.le_floor.mpr h
  unfold roundHalfEven
  split_ifs <;> omega

theorem two_zpow_split (e : ℤ) :
    (2 : ℚ) ^ e = ((4503599627370496 : ℤ) : ℚ) * (2 : ℚ) ^ (e - 52) := by
  have h52 : ((4503599627370496 : ℤ) : ℚ) = (2 : ℚ) ^ (52 : ℤ) := by norm_num
  rw [h52, ← zpow_add₀ (by norm_num : (2 : ℚ) ≠ 0)]
  congr 1
  ring

/-- A positive exact result of magnitude at least `2^1024` rounds to `+inf`. -/
theorem F64.round_overflow (q : ℚ) (h : (2 : ℚ) ^ (1024 : ℤ) ≤ q) :
    F64.round q = F64.inf false := by
  have hpos : 0 < q := lt_of_lt_of_le (by positivity) h
  have hne : q ≠ 0 := ne_of_gt hpos
  have habs : |q| = q := abs_of_pos hpos
  have hlog : (1024 : ℤ) ≤ Int.log 2 q := by
    rw [← Int.zpow_le_iff_le_log (by norm_num) hpos]
    simpa using h
  have he : max (Int.log 2 q) (-1022) = Int.log 2 q := max_eq_left (by omega)
  have hulp : (0 : ℚ) < (2 : ℚ) ^ (Int.log 2 q - 52) := by positivity
  have hself : (2 : ℚ) ^ Int.log 2 q ≤ q := by
    have := Int.zpow_log_le_self (R := ℚ) (b := 2) (by norm_num) hpos
    simpa using this
  have h52 : ((4503599627370496 : ℤ) : ℚ) ≤ q / (2 : ℚ) ^ (Int.log 2 q - 52) := by
    rw [le_div_iff₀ hulp, ← two_zpow_split]
    exact hself
  have hr' : ((4503599627370496 : ℤ) : ℚ)
      ≤ (roundHalfEven (q / (2 : ℚ) ^ (Int.log 2 q - 52)) : ℚ) := by
    exact_mod_cast le_roundHalfEven _ _ h52
  have hbig : (2 : ℚ) ^ (1024 : ℤ)
      ≤ (roundHalfEven (q / (2 : ℚ) ^ (Int.log 2 q - 52)) : ℚ)
          * (2 : ℚ) ^ (Int.log 2 q - 52) := by
    calc (2 : ℚ) ^ (1024 : ℤ) ≤ (2 : ℚ) ^ Int.log 2 q :=
          zpow_le_zpow_right₀ (by norm_num) hlog
      _ = ((4503599627370496 : ℤ) : ℚ) * (2 : ℚ) ^ (Int.log 2 q - 52) := two_zpow_split _
      _ ≤ _ := mul_le_mul_of_nonneg_right hr' (le_of_lt hulp)
  have hnn : 0 ≤ (roundHalfEven (q / (2 : ℚ) ^ (Int.log 2 q - 52)) : ℚ)
      * (2 : ℚ) ^ (Int.log 2 q - 52) := le_trans (by positivity) hbig
  unfold F64.round
  simp only [hne, if_false, habs, he, abs_of_nonneg hnn, hbig, if_true]
  simp [not_lt.mpr (le_of_lt hpos)]

/-- Natural numbers below `2^53` are binary64 numbers: rounding leaves them unchanged. -/
theorem F64.round_natCast (n : ℕ) (h : n < 2 ^ 53) : F64.round (n : ℚ) = F64.fin (n : ℚ) := by
  by_cases h0 : n = 0
  · subst h0; simp [F64.round_zero]
  have hpos : (0 : ℚ) < (n : ℚ) := by exact_mod_cast Nat.pos_of_ne_zero h0
  have hk : Nat.log 2 n < 53 := Nat.log_lt_of_lt_pow h0 h
  have hlog : Int.log 2 (n : ℚ) = (Nat.log 2 n : ℤ) := Int.log_natCast 2 n
  have he : max ((Nat.log 2 n : ℕ) : ℤ) (-1022) = ((Nat.log 2 n : ℕ) : ℤ) :=
    max_eq_left (by omega)
  have hulp : (2 : ℚ) ^ (((Nat.log 2 n : ℕ) : ℤ) - 52)
      = ((2 : ℚ) ^ (52 - Nat.log 2 n))⁻¹ := by
    rw [← zpow_natCast, ← zpow_neg]
    congr 1
    omega
  have hp : (0 : ℚ) < (2 : ℚ) ^ (52 - Nat.log 2 n) := by positivity
  have hq : (n : ℚ) / ((2 : ℚ) ^ (52 - Nat.log 2 n))⁻¹
      = (((n * 2 ^ (52 - Nat.log 2 n) : ℕ) : ℤ) : ℚ) := by
    push_cast
    rw [div_inv_eq_mul]
  have hr : ((((n * 2 ^ (52 - Nat.log 2 n) : ℕ) : ℤ) : ℚ))
      * ((2 : ℚ) ^ (52 - Nat.log 2 n))⁻¹ = (n : ℚ) := by
    push_cast
    field_simp
  have hlt : ¬ (2 : ℚ) ^ (1024 : ℤ) ≤ (n : ℚ) := by
    rw [not_le]
    calc (n : ℚ) < (2 : ℚ) ^ (53 : ℤ) := by exact_mod_cast h
      _ ≤ (2 : ℚ) ^ (1024 : ℤ) := zpow_le_zpow_right₀ (by norm_num) (by norm_num)
  unfold F64.round
  simp only [ne_of_gt hpos, if_false, abs_of_pos hpos, hlog, he, hulp, hq,
    roundHalfEven_intCast, hr, hlt]

theorem F64.sub_self_fin (a : ℚ) : F64.sub (F64.fin a) (F64.fin a) = F64.fin 0 := by
  simp [F64.sub, F64.neg, F64.add, F64.round_zero]

theorem F64.zero_mul (v : F64) :
    F64.mul (F64.fin 0) v = if v.isFinite = true then F64.fin 0 else F64.nan := by
  cases v <;> simp [F64.mul, F64.isFinite, F64.round_zero]

theorem F64.zero_div_sqrt2 : F64.div (F64.fin 0) M_SQRT2_F64 = F64.fin 0 := by
  simp [F64.div, M_SQRT2_F64, F64.round_zero]

theorem F64.add_zero_zero : F64.add (F64.fin 0) (F64.fin 0) = F64.fin 0 := by
  simp [F64.add, F64.round_zero]

/-- The product `M_PI * wheelDiameter` overflows for the wheel diameter `2^1023`. -/
theorem M_PI_F64_mul_overflow :
    F64.mul M_PI_F64 (F64.fin ((2 : ℚ) ^ (1023 : ℤ))) = F64.inf false := by
  unfold M_PI_F64 F64.mul
  apply F64.round_overflow
  have h : (2 : ℚ) ^ (1024 : ℤ) = 2 * (2 : ℚ) ^ (1023 : ℤ) := by
    rw [show (1024 : ℤ) = 1023 + 1 by norm_num, zpow_add_one₀ (by norm_num : (2 : ℚ) ≠ 0)]
    ring
  rw [h]
  exact mul_le_mul_of_nonneg_right (by norm_num) (by positivity)

/-- The second of two calls with the same readings, in binary64 arithmetic. -/
theorem getDistanceF64_twice (w : DiagonalTrackingWheel F64) (tA tB : ℤ) :
    getDistanceF64 (getDistanceF64 w tA tB).2 tA tB
      = (if (F64.div (F64.mul M_PI_F64 w.wheelDiameter) (F64.fin 8192)).isFinite = true
          then F64.fin 0 else F64.nan,
        (getDistanceF64 w tA tB).2) := by
  have hs : (getDistanceF64 w tA tB).2
      = { isVertical := w.isVertical, wheelDiameter := w.wheelDiameter,
          lastA := F64.fin (tA : ℚ), lastB := F64.fin (tB : ℚ) } := by
    unfold getDistanceF64
    by_cases h : w.isVertical = true <;> simp [h]
  rw [hs]
  unfold getDistanceF64
  simp only [F64.sub_self_fin, F64.zero_mul]
  generalize F64.div (F64.mul M_PI_F64 w.wheelDiameter) (F64.fin 8192) = v
  cases v <;> by_cases hv : w.isVertical = true <;>
    simp [hv, F64.isFinite, F64.sub_self_fin, F64.add_zero_zero, F64.zero_div_sqrt2] <;>
    simp [F64.add, F64.sub, F64.neg, F64.div]

theorem F64.sub_twenty_fifteen : F64.sub (F64.fin 20) (F64.fin 15) = F64.fin 5 := by
  have h : (20 : ℚ) + -15 = ((5 : ℕ) : ℚ) := by norm_num
  simp only [F64.sub, F64.neg, F64.add, h]
  rw [F64.round_natCast 5 (by norm_num)]
  norm_num

theorem F64.overlap_twenty_fifteen_ten :
    F64.le (F64.sub (F64.fin 20) (F64.fin 15)) (F64.fin 10) = true := by
  rw [F64.sub_twenty_fifteen]
  norm_num [F64.le]

/-- On numbers, with the zone constants of `main.cpp`, the speed selection on `double`
values is the one on rationals. -/
theorem extendSpeedF64_program_constants (pos : ℚ) (middleState : Bool) :
    extendSpeedF64 (F64.fin LEVER_MAX) (F64.fin LEVER_SNAP_ZONE) (F64.fin LEVER_START_BOOST)
        (F64.fin pos) middleState
      = extendSpeed LEVER_MAX LEVER_SNAP_ZONE LEVER_START_BOOST pos middleState := by
  have hsub : F64.sub (F64.fin LEVER_MAX) (F64.fin LEVER_SNAP_ZONE) = F64.fin 260 := by
    have h : LEVER_MAX + -LEVER_SNAP_ZONE = ((260 : ℕ) : ℚ) := by
      norm_num [LEVER_MAX, LEVER_SNAP_ZONE]
    simp only [F64.sub, F64.neg, F64.add, h]
    rw [F64.round_natCast 260 (by norm_num)]
    norm_num
  have h260 : LEVER_MAX - LEVER_SNAP_ZONE = 260 := by norm_num [LEVER_MAX, LEVER_SNAP_ZONE]
  unfold extendSpeedF64 extendSpeed
  rw [hsub, h260]
  simp [F64.le, F64.ge]

/-- With overlapping zones every `double` other than NaN passes the launch test or the snap
test. -/
theorem F64.le_or_ge_of_overlap (t b pos : F64) (h : F64.le t b = true)
    (hp : pos ≠ F64.nan) : F64.le pos b = true ∨ F64.ge pos t = true := by
  unfold F64.ge
  cases pos with
  | nan => exact absurd rfl hp
  | inf s =>
    cases s
    · right
      cases t <;> simp_all [F64.le]
    · left
      cases b <;> cases t <;> simp_all [F64.le]
  | fin x =>
    cases t with
    | nan => simp [F64.le] at h
    | inf s =>
      cases s
      · left
        cases b <;> simp_all [F64.le]
      · right
        simp [F64.le]
    | fin c =>
      cases b with
      | nan => simp [F64.le] at h
      | inf s' =>
        cases s'
        · left; simp [F64.le]
        · simp [F64.le] at h
      | fin d =>
        have hcd : c ≤ d := by simpa [F64.le] using h
        rcases le_or_lt x d with h1 | h1
        · left; simpa [F64.le] using h1
        · right
          have : c ≤ x := le_trans hcd (le_of_lt h1)
          simpa [F64.le] using this

/-! ## The diagonal tracking wheel: a repeated reading -/

/-- Claim C3, as stated, fails. In binary64 arithmetic, for a forward wheel constructed with
the finite wheel diameter `2^1023`, the product `M_PI * wheelDiameter` overflows to `+inf`;
the second of two calls with the readings `(1, 0)` computes `0 * inf` and returns NaN, which
is not 0. -/
theorem repeated_reading_with_overflow_returns_nan :
    (getDistanceF64
        (getDistanceF64 ⟨true, F64.fin ((2 : ℚ) ^ (1023 : ℤ)), F64.fin 0, F64.fin 0⟩ 1 0).2
        1 0).1 = F64.nan
      ∧ F64.nan ≠ F64.fin 0 := by
  refine ⟨?_, fun h => F64.noConfusion h⟩
  have h8192 : ¬ ((8192 : ℚ) < 0) := by norm_num
  have hinf : F64.div (F64.mul M_PI_F64 (F64.fin ((2 : ℚ) ^ (1023 : ℤ)))) (F64.fin 8192)
      = F64.inf false := by
    rw [M_PI_F64_mul_overflow]
    simp only [F64.div, h8192, decide_False, Bool.xor_false]
  rw [getDistanceF64_twice, hinf]
  rfl

/-- Claim C3, as amended. For every instance (either orientation, any prior `lastA`,
`lastB`) and every pair of readings `(tA, tB)`: when `getDistance` is called twice in a row
with these readings, the second call leaves the instance as the first call left it. Over
the reals (over every field, for every value of the two `<cmath>` constants) it returns
exactly 0 for every wheel diameter. In binary64 arithmetic it returns exactly 0 whenever
the `inchesPerTick` it computes, `M_PI * wheelDiameter / 8192`, is finite, and NaN when
that value is an infinity or NaN. -/
theorem repeated_reading_returns_zero_or_nan :
    (∀ (α : Type) [Field α] (M_PI M_SQRT2 : α) (w : DiagonalTrackingWheel α) (tA tB : ℤ),
        getDistance M_PI M_SQRT2 (getDistance M_PI M_SQRT2 w tA tB).2 tA tB
          = (0, (getDistance M_PI M_SQRT2 w tA tB).2))
      ∧ (∀ (w : DiagonalTrackingWheel F64) (tA tB : ℤ),
        getDistanceF64 (getDistanceF64 w tA tB).2 tA tB
          = (if (F64.div (F64.mul M_PI_F64 w.wheelDiameter) (F64.fin 8192)).isFinite = true
              then F64.fin 0 else F64.nan,
            (getDistanceF64 w tA tB).2)) :=
  ⟨fun _ _ p q w a b => getDistance_twice p q w a b, getDistanceF64_twice⟩

/-! ## The lever sequencer: overlapping zones -/

/-- Claim C12, as stated, fails. With the overlapping zones `leverMax = 20`,
`snapZone = 15`, `startBoost = 10` (`20 − 15 ≤ 10`) and a NaN position, both zone tests are
false and the cruise branch is taken: the speed is 30 with the toggle off and 70 with it
on, not 127. -/
theorem nan_position_reaches_cruise :
    F64.le (F64.sub (F64.fin 20) (F64.fin 15)) (F64.fin 10) = true
      ∧ extendSpeedF64 (F64.fin 20) (F64.fin 15) (F64.fin 10) F64.nan false = 30
      ∧ extendSpeedF64 (F64.fin 20) (F64.fin 15) (F64.fin 10) F64.nan true = 70
      ∧ extendSpeedF64 (F64.fin 20) (F64.fin 15) (F64.fin 10) F64.nan false ≠ 127 := by
  have h2 : ∀ m : Bool, extendSpeedF64 (F64.fin 20) (F64.fin 15) (F64.fin 10) F64.nan m
      = if m = true then 70 else 30 := by
    intro m
    simp [extendSpeedF64, F64.le, F64.ge, F64.sub_twenty_fifteen, LEVER_SPEED_FAST,
      LEVER_SPEED_SLOW]
  refine ⟨F64.overlap_twenty_fifteen_ten, ?_, ?_, ?_⟩
  · rw [h2]; rfl
  · rw [h2]; rfl
  · rw [h2]; decide

/-- Claim C12, as amended. With the zone constants as arguments and `double` values
throughout: whenever `leverMax − snapZone ≤ startBoost` holds for the computed difference,
the extending speed selection returns 127 for every position other than NaN (every number
and both infinities) and every value of the auxiliary toggle, because such a position
passes the launch test or the snap test; for a NaN position both tests are false and the
selection returns the cruise speed, 70 with the toggle on and 30 with it off. -/
theorem overlapping_zones_boost_unless_nan (leverMax snapZone startBoost pos : F64)
    (middleState : Bool)
    (h : F64.le (F64.sub leverMax snapZone) startBoost = true) :
    (pos ≠ F64.nan →
        extendSpeedF64 leverMax snapZone startBoost pos middleState = 127
          ∧ (F64.le pos startBoost = true
            ∨ F64.ge pos (F64.sub leverMax snapZone) = true))
      ∧ extendSpeedF64 leverMax snapZone startBoost F64.nan middleState
        = (if middleState = true then 70 else 30) := by
  constructor
  · intro hp
    have hz := F64.le_or_ge_of_overlap _ _ pos h hp
    refine ⟨?_, hz⟩
    unfold extendSpeedF64
    rcases hz with h1 | h1
    · simp [h1, LEVER_SPEED_BOOST]
    · by_cases h0 : F64.le pos startBoost = true
      · simp [h0, LEVER_SPEED_BOOST]
      · simp [h0, h1, LEVER_SPEED_BOOST]
  · unfold extendSpeedF64 F64.ge
    generalize F64.sub leverMax snapZone = t
    cases t <;> cases startBoost <;>
      simp [F64.le, LEVER_SPEED_FAST, LEVER_SPEED_SLOW]

/-- Claim C12 as amended, at concrete overlapping zones: `leverMax = 20`, `snapZone = 15`,
`startBoost = 10`, position 12, toggle off. -/
theorem overlapping_zones_boost_unless_nan_witness :
    F64.le (F64.sub (F64.fin 20) (F64.fin 15)) (F64.fin 10) = true
      ∧ F64.fin 12 ≠ F64.nan
      ∧ extendSpeedF64 (F64.fin 20) (F64.fin 15) (F64.fin 10) (F64.fin 12) false = 127
      ∧ (F64.le (F64.fin 12) (F64.fin 10) = true
          ∨ F64.ge (F64.fin 12) (F64.sub (F64.fin 20) (F64.fin 15)) = true) :=
  ⟨F64.overlap_twenty_fifteen_ten, fun h => F64.noConfusion h,
    (overlapping_zones_boost_unless_nan (F64.fin 20) (F64.fin 15) (F64.fin 10) (F64.fin 12)
      false F64.overlap_twenty_fifteen_ten).1 (fun h => F64.noConfusion h)⟩

end LeverVex
